import Mathlib

/-!
Verification of the clitutor Shell Session Controller.

This file shallowly embeds the sentinel parser (`SentinelCapture`,
`src/unnamed/part_011`, newest variant with `partialBuffer` and
`muteSerial`), the output validator (`src/clitutor-web/src/core/models.ts`),
the XP / level arithmetic (`src/unnamed/part_013`) and the guard chain of
`App.handleCommand` (`src/unnamed/part_014`), and proves the frozen claims
about them.

Modelling conventions:
* JS strings are `List Char`; JS numbers used as exact quantities (XP,
  thresholds) are `ℚ`, exit codes are `Int`.
* The source stores captured output as an array of chunk strings that is
  only ever observed through the JS join of the chunks; we embed the buffer as the
  joined string (`capturedChunks : List Char`, push = append).
* Timers (the 50 ms partial-sentinel safety timer and the 8 ms display
  flush timer) are embedded as explicit steps (`partialTimerFire`,
  `flushDisplayQueue`) which the environment may interleave between
  `processOutput` calls; `setTimeout` handles themselves are not state.
* Callback invocations (`onDisplay`, `onCommand`, `onReady`) are recorded
  as an ordered trace of `OutEvent`s returned by each operation.
-/

set_option linter.unusedVariables false

/-- JS whitespace as used by `String.prototype.trim` and `parseInt`. -/
def jsWhitespace (c : Char) : Bool :=
  (9 ≤ c.toNat && c.toNat ≤ 13) || c == ' ' || c.toNat == 0xa0 || c.toNat == 0x1680 ||
  (0x2000 ≤ c.toNat && c.toNat ≤ 0x200a) || c.toNat == 0x2028 || c.toNat == 0x2029 ||
  c.toNat == 0x202f || c.toNat == 0x205f || c.toNat == 0x3000 || c.toNat == 0xfeff

/-- Embedding of `String.prototype.trim`. -/
def jsTrim (s : List Char) : List Char :=
  ((s.dropWhile jsWhitespace).reverse.dropWhile jsWhitespace).reverse

/-- Value of a digit string. -/
def digitsVal (ds : List Char) : Nat :=
  ds.foldl (fun a c => a * 10 + (c.toNat - 48)) 0

/-- Embedding of `parseInt(s, 10)`: skip leading whitespace, optional sign,
then the maximal leading digit run; `none` models `NaN`. -/
def jsParseInt (s : List Char) : Option Int :=
  let s₁ := s.dropWhile jsWhitespace
  match s₁ with
  | '-' :: r => (fun v => -(v : Int)) <$> (if r.takeWhile Char.isDigit = [] then none
      else some (digitsVal (r.takeWhile Char.isDigit)))
  | '+' :: r => (fun v => (v : Int)) <$> (if r.takeWhile Char.isDigit = [] then none
      else some (digitsVal (r.takeWhile Char.isDigit)))
  | r => (fun v => (v : Int)) <$> (if r.takeWhile Char.isDigit = [] then none
      else some (digitsVal (r.takeWhile Char.isDigit)))

/-- Auxiliary for single-character `String.prototype.split`. -/
def jsSplitCharAux (sep : Char) : List Char → List Char → List (List Char)
  | [], acc => [acc.reverse]
  | c :: cs, acc =>
    if c = sep then acc.reverse :: jsSplitCharAux sep cs []
    else jsSplitCharAux sep cs (c :: acc)

/-- Embedding of `s.split(sep)` for a one-character separator. -/
def jsSplitChar (s : List Char) (sep : Char) : List (List Char) :=
  jsSplitCharAux sep s []

/-- Embedding of `s.split(sep, limit)`: JS truncates to the first
`limit` fields. -/
def jsSplitCharLimit (s : List Char) (sep : Char) (limit : Nat) : List (List Char) :=
  (jsSplitChar s sep).take limit

/-- Index of the first occurrence of `sub` in `s` (JS `String.indexOf`),
`none` when absent. -/
def findSubIdx (sub : List Char) : List Char → Option Nat
  | [] => if sub.isPrefixOf ([] : List Char) then some 0 else none
  | c :: cs =>
    if sub.isPrefixOf (c :: cs) then some 0
    else (findSubIdx sub cs).map (· + 1)

/-- Fueled embedding of `s.split(sep)` for a multi-character separator. -/
def jsSplitStrF (sep : List Char) : Nat → List Char → List (List Char)
  | 0, s => [s]
  | fuel + 1, s =>
    match findSubIdx sep s with
    | none => [s]
    | some i => s.take i :: jsSplitStrF sep fuel (s.drop (i + sep.length))

/-- Embedding of `s.split(sep)` for a multi-character separator. -/
def jsSplitStr (s : List Char) (sep : List Char) : List (List Char) :=
  jsSplitStrF sep s.length s

/-- Embedding of `s.includes(sub)`. -/
def jsIncludes (s : List Char) (sub : List Char) : Bool :=
  (findSubIdx sub s).isSome

/-- The sentinel delimiter byte `0x1F` (`SENTINEL_CHAR` in `bashrc.ts`). -/
def SENTINEL_CHAR : Char := Char.ofNat 0x1f

/-- The `CMD_START` sentinel body from `bashrc.ts`. -/
def CMD_START_SENTINEL : List Char := "__CLITUTOR_CMD_START__".data

/-- The `CMD_END` sentinel body stem from `bashrc.ts`. -/
def CMD_END_SENTINEL : List Char := "__CLITUTOR_CMD_END__".data

/-- Drop the literal `lit` from the front of `cs`; `none` on mismatch.
Building block for the anchored sentinel-regex match. -/
def dropLit : List Char → List Char → Option (List Char)
  | [], cs => some cs
  | _ :: _, [] => none
  | a :: l, c :: cs => if a = c then dropLit l cs else none

/-- The Bool predicate of the character class `[^\x1f]`. -/
def notUS (x : Char) : Bool := x ≠ SENTINEL_CHAR

/-- Anchored attempt of the sentinel regex
`\x1f(CMD_START|CMD_END:\d+:[^\x1f]*)\x1f` (`SENTINEL_RE` in the source)
at position 0. Returns the capture-group body (`match[1]`) and the text
after the match. The regex alternation is deterministic: the two literals
diverge at index 15, `\d+` is a maximal digit run that must be followed by
`:`, and greedy `[^\x1f]*` stops at the first `0x1F`, which is then
consumed as the closing delimiter. -/
def matchSentinelAt : List Char → Option (List Char × List Char)
  | [] => none
  | c :: cs =>
    if c = SENTINEL_CHAR then
      match dropLit (CMD_START_SENTINEL ++ [SENTINEL_CHAR]) cs with
      | some rest => some (CMD_START_SENTINEL, rest)
      | none =>
        match dropLit (CMD_END_SENTINEL ++ [':']) cs with
        | none => none
        | some cs₂ =>
          let ds := cs₂.takeWhile Char.isDigit
          let cs₃ := cs₂.dropWhile Char.isDigit
          if ds = [] then none
          else
            match cs₃ with
            | ':' :: cs₄ =>
              let cw := cs₄.takeWhile notUS
              let cs₅ := cs₄.dropWhile notUS
              match cs₅ with
              | _ :: cs₆ => some (CMD_END_SENTINEL ++ ':' :: ds ++ ':' :: cw, cs₆)
              | [] => none
            | _ => none
    else none

/-- Leftmost match of `SENTINEL_RE` in `data` (the semantics of one
`SENTINEL_RE.exec` step with the `g` flag): the text before the match, the
capture-group body, and the text after the match. -/
def findSentinel : List Char → Option (List Char × List Char × List Char)
  | [] => none
  | c :: cs =>
    match matchSentinelAt (c :: cs) with
    | some (body, rest) => some ([], body, rest)
    | none =>
      match findSentinel cs with
      | some (pre, body, rest) => some (c :: pre, body, rest)
      | none => none

/-- ESC byte. -/
def ESC : Char := Char.ofNat 0x1b

/-- BEL byte. -/
def BEL : Char := Char.ofNat 0x07

/-- Parameter byte class of `ANSI_CSI_RE` (`[\x20-\x3f]`). -/
def isCsiParam (c : Char) : Bool := 0x20 ≤ c.toNat && c.toNat ≤ 0x3f

/-- Final byte class of `ANSI_CSI_RE` (`[\x40-\x7e]`). -/
def isCsiFinal (c : Char) : Bool := 0x40 ≤ c.toNat && c.toNat ≤ 0x7e

/-- Fueled embedding of `text.replace(ANSI_CSI_RE, "")` with
`ANSI_CSI_RE = /\x1b\[[\x20-\x3f]*[\x40-\x7e]/g`: global left-to-right
scan removing each match.  `fuel ≥ length` makes the scan total. -/
def stripCsiF : Nat → List Char → List Char
  | 0, s => s
  | _ + 1, [] => []
  | fuel + 1, c :: cs =>
    if c = ESC then
      match cs with
      | '[' :: cs₁ =>
        match cs₁.dropWhile isCsiParam with
        | f :: cs₂ =>
          if isCsiFinal f then stripCsiF fuel cs₂ else c :: stripCsiF fuel cs
        | [] => c :: stripCsiF fuel cs
      | _ => c :: stripCsiF fuel cs
    else c :: stripCsiF fuel cs

/-- Embedding of `text.replace(ANSI_CSI_RE, "")`. -/
def stripCsi (s : List Char) : List Char := stripCsiF s.length s

/-- Fueled embedding of `text.replace(ANSI_OSC_RE, "")` with
`ANSI_OSC_RE = /\x1b\][^\x07]*\x07/g`. -/
def stripOscF : Nat → List Char → List Char
  | 0, s => s
  | _ + 1, [] => []
  | fuel + 1, c :: cs =>
    if c = ESC then
      match cs with
      | ']' :: cs₁ =>
        match cs₁.dropWhile (fun x => x ≠ BEL) with
        | _ :: cs₂ => stripOscF fuel cs₂
        | [] => c :: stripOscF fuel cs
      | _ => c :: stripOscF fuel cs
    else c :: stripOscF fuel cs

/-- Embedding of `text.replace(ANSI_OSC_RE, "")`. -/
def stripOsc (s : List Char) : List Char := stripOscF s.length s

/-- Character class of `CTRL_CHAR_RE = /[\x00-\x08\x0b-\x1f]/g` (keeps tab
`0x09` and newline `0x0a`). -/
def isStrippedCtrl (c : Char) : Bool :=
  c.toNat ≤ 8 || (0x0b ≤ c.toNat && c.toNat ≤ 0x1f)

/-- Embedding of `text.replace(CTRL_CHAR_RE, "")`. -/
def stripCtrl (s : List Char) : List Char := s.filter (fun c => !isStrippedCtrl c)

/-- Embedding of the first-line strip in `finishCapture`:
`nlIdx = text.indexOf("\n"); if (nlIdx !== -1) text = text.slice(nlIdx+1)`. -/
def stripFirstLine (s : List Char) : List Char :=
  if s.contains '\n' then (s.dropWhile (fun c => c ≠ '\n')).drop 1 else s

/-- The full cleaning pipeline of `finishCapture` applied to the joined
captured chunks. -/
def cleanCaptured (raw : List Char) : List Char :=
  stripFirstLine (stripCtrl (stripOsc (stripCsi raw)))

/-- Embedding of the `CommandResult` record of `core/models.ts`. -/
structure CommandResult where
  command : List Char
  stdout : List Char
  stderr : List Char
  returncode : Int
  timed_out : Bool
  blocked : Bool
  block_reason : List Char
  cwd : List Char
deriving DecidableEq, Repr

/-- Embedding of `createCommandResult({stdout, returncode, cwd})`: the only
call shape used by the sentinel parser; the remaining fields take the
defaults of `createCommandResult`. -/
def createCommandResult (stdout : List Char) (returncode : Int) (cwd : List Char) :
    CommandResult :=
  { command := [], stdout := stdout, stderr := [], returncode := returncode,
    timed_out := false, blocked := false, block_reason := [], cwd := cwd }

/-- One observable callback invocation of the sentinel parser, in order:
`onDisplay`, `onCommand` or `onReady`. -/
inductive OutEvent where
  | display (text : List Char)
  | command (result : CommandResult)
  | ready
deriving DecidableEq, Repr

/-- Mutable state of the `SentinelCapture` class (newest variant in
`src/unnamed/part_011`).  `capturedChunks` is the joined capture buffer
(the source's array of chunks is only ever read through `join("")`);
timer handles are modelled as explicit steps, not state. -/
structure SentinelCapture where
  capturing : Bool
  capturedChunks : List Char
  cwd : List Char
  skipCaptures : Nat
  ready : Bool
  pendingMessages : List (List Char)
  displayQueue : List (List Char)
  partialBuffer : List Char
  muteSerial : Bool
deriving DecidableEq, Repr

namespace SentinelCapture

/-- Initial field values of the class. -/
def init : SentinelCapture :=
  { capturing := false, capturedChunks := [], cwd := "/home/student".data,
    skipCaptures := 1, ready := false, pendingMessages := [],
    displayQueue := [], partialBuffer := [], muteSerial := false }

/-- Rendering of one pre-ready system message in `flushPendingMessages`. -/
def renderPendingMsg (msg : List Char) : List Char :=
  "\x1b[1;36m  ▸ ".data ++ msg ++ "\x1b[0m\r\n".data

/-- Rendering of one post-ready system message in `queueSystemMessage`. -/
def renderQueuedMsg (msg : List Char) : List Char :=
  "\r\x1b[K\x1b[1;36m  ▸ ".data ++ msg ++ "\x1b[0m\r\n".data

/-- Embedding of `flushPendingMessages`: one `onDisplay` call per queued
pre-ready message. -/
def flushPendingMessages (st : SentinelCapture) : SentinelCapture × List OutEvent :=
  if st.pendingMessages = [] then (st, [])
  else ({ st with pendingMessages := [] },
        st.pendingMessages.map (fun m => OutEvent.display (renderPendingMsg m)))

/-- Embedding of `finishCapture(exitCode)`: ends the capture window, skips
internal captures (decrementing `skipCaptures`, firing `ready` on the first
skip), otherwise cleans the captured text and returns a `CommandResult`. -/
def finishCapture (st : SentinelCapture) (exitCode : Int) :
    SentinelCapture × List OutEvent × Option CommandResult :=
  let raw := st.capturedChunks
  let st₁ := { st with capturing := false, capturedChunks := [] }
  if st₁.skipCaptures > 0 then
    let st₂ := { st₁ with skipCaptures := st₁.skipCaptures - 1 }
    if st₂.ready then (st₂, [], none)
    else
      let (st₃, evs) := flushPendingMessages { st₂ with ready := true }
      (st₃, evs ++ [OutEvent.ready], none)
  else
    (st₁, [], some (createCommandResult (cleanCaptured raw) exitCode st₁.cwd))

/-- Embedding of the sentinel-dispatch in the `processOutput` match loop:
`CMD_START` clears `muteSerial`, starts capturing and resets the chunks;
`CMD_END:<code>:<cwd>` parses exit code and cwd via `split(":", 3)` /
`parseInt` and finishes the capture.  `parseInt` cannot return `NaN` here
because the regex guarantees a nonempty digit run; `.getD 0` mirrors that. -/
def handleSentinel (st : SentinelCapture) (body : List Char) :
    SentinelCapture × List OutEvent × Option CommandResult :=
  if body = CMD_START_SENTINEL then
    ({ st with muteSerial := false, capturing := true, capturedChunks := [] }, [], none)
  else if (CMD_END_SENTINEL ++ [':']).isPrefixOf body then
    let parts := jsSplitCharLimit body ':' 3
    let exitCode : Int :=
      if 1 < parts.length then (jsParseInt (parts.getD 1 [])).getD 0 else 0
    let newCwd := if 2 < parts.length then parts.getD 2 [] else st.cwd
    finishCapture { st with cwd := newCwd } exitCode
  else (st, [], none)

/-- Embedding of the per-segment pushes in the match loop: a nonempty
segment is appended to the capture when `capturing` and becomes a display
part unless `muteSerial` is set. -/
def pushSegment (st : SentinelCapture) (seg : List Char) :
    SentinelCapture × List (List Char) :=
  if seg = [] then (st, [])
  else
    let st₁ := if st.capturing then { st with capturedChunks := st.capturedChunks ++ seg } else st
    if st₁.muteSerial then (st₁, []) else (st₁, [seg])

/-- Embedding of the tail handling after the last sentinel match: if the
tail contains `0x1F` (`tail.indexOf(SENTINEL_CHAR)`), the safe prefix
before it is pushed and the rest is buffered in `partialBuffer` for the
next call; otherwise the whole tail is pushed. -/
def handleTail (st : SentinelCapture) (tail : List Char) :
    SentinelCapture × List OutEvent × List (List Char) × List CommandResult :=
  if tail = [] then (st, [], [], [])
  else
    let t₀ := tail.takeWhile notUS
    let u := tail.dropWhile notUS
    if u = [] then
      let (st₁, parts) := pushSegment st tail
      (st₁, [], parts, [])
    else
      let (st₁, parts) := pushSegment st t₀
      ({ st₁ with partialBuffer := u }, [], parts, [])

/-- Fueled embedding of the `while ((match = SENTINEL_RE.exec(data)))` loop
of `processOutput` followed by the tail handling: returns the final state,
the callback invocations made during the loop (pre-ready message flushes
and the ready callback), the accumulated `displayParts`, and the
accumulated `pendingResults`.  `fuel ≥ data.length` makes the loop total. -/
def scanLoopF : Nat → SentinelCapture → List Char →
    SentinelCapture × List OutEvent × List (List Char) × List CommandResult
  | 0, st, data => handleTail st data
  | fuel + 1, st, data =>
    match findSentinel data with
    | none => handleTail st data
    | some (pre, body, rest) =>
      let (st₁, parts₁) := pushSegment st pre
      let (st₂, evs₂, res₂) := handleSentinel st₁ body
      let (st₃, evs₃, parts₃, res₃) := scanLoopF fuel st₂ rest
      (st₃, evs₂ ++ evs₃, parts₁ ++ parts₃, res₂.toList ++ res₃)

/-- The `processOutput` match loop on `data`. -/
def scanLoop (st : SentinelCapture) (data : List Char) :
    SentinelCapture × List OutEvent × List (List Char) × List CommandResult :=
  scanLoopF data.length st data

/-- Embedding of `flushDisplayQueue`: all buffered system messages are
written to the terminal in one `onDisplay` call. -/
def flushDisplayQueue (st : SentinelCapture) : SentinelCapture × List OutEvent :=
  if st.displayQueue = [] then (st, [])
  else ({ st with displayQueue := [] }, [OutEvent.display st.displayQueue.flatten])

/-- Embedding of `processOutput(data)` of the newest `SentinelCapture`
variant: flush the display queue, prepend the buffered partial sentinel,
run the match loop and the tail handling, emit the joined display parts
first, then fire the command callbacks. -/
def processOutput (st : SentinelCapture) (data₀ : List Char) :
    SentinelCapture × List OutEvent :=
  let (st₁, evF) := flushDisplayQueue st
  let data := st₁.partialBuffer ++ data₀
  let st₂ := { st₁ with partialBuffer := [] }
  let (st₃, evs, parts, results) := scanLoop st₂ data
  let clean := parts.flatten
  let evClean := if clean = [] then [] else [OutEvent.display clean]
  (st₃, evF ++ evs ++ evClean ++ results.map OutEvent.command)

/-- Embedding of the 50 ms partial-buffer safety timer callback: flush the
buffered partial as plain bytes (captured when `capturing`, displayed
unless muted). -/
def partialTimerFire (st : SentinelCapture) : SentinelCapture × List OutEvent :=
  if st.partialBuffer = [] then (st, [])
  else
    let buf := st.partialBuffer
    let st₁ := { st with partialBuffer := [] }
    let st₂ := if st₁.capturing then { st₁ with capturedChunks := st₁.capturedChunks ++ buf } else st₁
    if st₂.muteSerial then (st₂, []) else (st₂, [OutEvent.display buf])

/-- Embedding of `queueSystemMessage(text)`: held in `pendingMessages`
before ready, buffered into `displayQueue` (for an atomic flush) after. -/
def queueSystemMessage (st : SentinelCapture) (text : List Char) :
    SentinelCapture × List OutEvent :=
  if !st.ready then ({ st with pendingMessages := st.pendingMessages ++ [text] }, [])
  else ({ st with displayQueue := st.displayQueue ++ [renderQueuedMsg text] }, [])

/-- Embedding of `muteUntilNextPrompt()`. -/
def muteUntilNextPrompt (st : SentinelCapture) : SentinelCapture :=
  { st with muteSerial := true }

/-- Embedding of `skipNextCapture()`. -/
def skipNextCapture (st : SentinelCapture) : SentinelCapture :=
  { st with skipCaptures := st.skipCaptures + 1 }

/-- Embedding of `reset()` (note: `cwd` is not reset by the source). -/
def reset (st : SentinelCapture) : SentinelCapture :=
  { st with
    capturing := false
    capturedChunks := []
    skipCaptures := 1
    ready := false
    muteSerial := false
    pendingMessages := []
    displayQueue := []
    partialBuffer := [] }

/-- Process a whole sequence of serial chunks, concatenating the traces. -/
def runChunks (st : SentinelCapture) : List (List Char) → SentinelCapture × List OutEvent
  | [] => (st, [])
  | c :: cs =>
    let (st₁, evs₁) := processOutput st c
    let (st₂, evs₂) := runChunks st₁ cs
    (st₂, evs₁ ++ evs₂)

end SentinelCapture

/-- Concatenation of all strings delivered to the display callback in a
trace. -/
def displayedText : List OutEvent → List Char
  | [] => []
  | OutEvent.display s :: evs => s ++ displayedText evs
  | _ :: evs => displayedText evs

/-- The `CommandResult`s fired in a trace, in order. -/
def commandsOf : List OutEvent → List CommandResult
  | [] => []
  | OutEvent.command r :: evs => r :: commandsOf evs
  | _ :: evs => commandsOf evs

/-- Fueled reference function: the input with every byte that lies inside a
`SENTINEL_RE` match removed (and nothing else). -/
def removeSentinelsF : Nat → List Char → List Char
  | 0, data => data
  | fuel + 1, data =>
    match findSentinel data with
    | none => data
    | some (pre, _, rest) => pre ++ removeSentinelsF fuel rest

/-- The input with every byte inside a sentinel match removed. -/
def removeSentinels (data : List Char) : List Char :=
  removeSentinelsF data.length data

/-- Fueled test for a `CMD_START` body among the sentinel matches of a
stream. -/
def hasStartF : Nat → List Char → Bool
  | 0, _ => false
  | fuel + 1, data =>
    match findSentinel data with
    | none => false
    | some (_, body, rest) => body = CMD_START_SENTINEL || hasStartF fuel rest

/-- Whether the stream contains a `CMD_START` sentinel match. -/
def hasStart (data : List Char) : Bool := hasStartF data.length data

/-- Embedding of `LEVEL_TABLE` from `src/unnamed/part_013`:
`(cumulative_xp_threshold, title)` pairs. -/
def LEVEL_TABLE : List (ℚ × String) :=
  [(0, "Newbie"), (50, "Curious Cat"), (150, "Script Kiddie"),
   (300, "Terminal Apprentice"), (500, "Shell Wrangler"), (750, "Pipe Plumber"),
   (1050, "Regex Ranger"), (1400, "Sysadmin Acolyte"), (1800, "Root Whisperer"),
   (2250, "Kernel Sage"), (2750, "Daemon Tamer"), (3300, "Syscall Sorcerer"),
   (3900, "Namespace Ninja"), (4550, "Container Captain"),
   (5250, "Cluster Commander"), (6000, "Infra Overlord"), (6500, "BDFL")]

/-- Embedding of the `LevelInfo` interface. -/
structure LevelInfo where
  level : Nat
  title : String
  current_xp : ℚ
  level_floor : ℚ
  level_ceiling : ℚ
deriving DecidableEq, Repr

/-- Embedding of `xpInLevel`. -/
def xpInLevel (info : LevelInfo) : ℚ := info.current_xp - info.level_floor

/-- Embedding of `xpForLevel`. -/
def xpForLevel (info : LevelInfo) : ℚ := info.level_ceiling - info.level_floor

/-- Embedding of `levelProgress`. -/
def levelProgress (info : LevelInfo) : ℚ :=
  if xpForLevel info = 0 then 1 else xpInLevel info / xpForLevel info

/-- The `for`/`break` scan of `getLevelInfo`: walk the table in order,
remembering the last index whose threshold is satisfied, stopping at the
first that is not. -/
def levelScanAux (totalXp : ℚ) : List (ℚ × String) → Nat → Nat → Nat
  | [], _, level => level
  | e :: rest, i, level =>
    if totalXp ≥ e.1 then levelScanAux totalXp rest (i + 1) i else level

/-- Embedding of `getLevelInfo(totalXp)`.  `getD` models the in-bounds JS
index `LEVEL_TABLE[level]`. -/
def getLevelInfo (totalXp : ℚ) : LevelInfo :=
  let level := levelScanAux totalXp LEVEL_TABLE 0 0
  let entry := LEVEL_TABLE.getD level (0, "Newbie")
  let ceilingXp :=
    if level + 1 < LEVEL_TABLE.length then (LEVEL_TABLE.getD (level + 1) (0, "")).1
    else entry.1
  { level := level, title := entry.2, current_xp := totalXp,
    level_floor := entry.1, level_ceiling := ceilingXp }

/-- Embedding of the `HINT_PENALTIES` record: `none` models an absent key
(the source then falls back to `?? 0.50`). -/
def HINT_PENALTIES (h : Nat) : Option ℚ :=
  if h = 0 then some 0
  else if h = 1 then some (1/10)
  else if h = 2 then some (3/10)
  else if h = 3 then some (1/2)
  else none

/-- Embedding of `calculateXp(baseXp, difficulty, firstTry, hintsUsed)`
with JS numbers modelled as exact rationals. -/
def calculateXp (baseXp : ℚ) (difficulty : ℚ) (firstTry : Bool) (hintsUsed : Nat) : ℤ :=
  let m₁ : ℚ := 1 + (difficulty - 1) * (1/10)
  let m₂ : ℚ := if firstTry then m₁ + 1/2 else m₁
  let hintPenalty : ℚ := (HINT_PENALTIES (min hintsUsed 3)).getD (1/2)
  let m₃ : ℚ := m₂ - hintPenalty
  let m₄ : ℚ := max m₃ (1/4)
  ⌊baseXp * m₄⌋

/-- Embedding of the `Exercise` record of `core/models.ts`. -/
structure Exercise where
  id : String
  title : String
  xp : ℚ
  difficulty : ℚ
  sandbox_setup : Option (List String)
  validation_type : String
  expected : List Char
  hints : List String
  attempts : Nat
  first_try : Bool
  hints_used : Nat
  completed : Bool
deriving DecidableEq, Repr

/-- Embedding of the `ValidationResult` record of the validator. -/
structure ValidationResult where
  passed : Bool
  message : String
deriving DecidableEq, Repr

/-- Oracle for the `LinuxVM` filesystem operations awaited by the
filesystem-kind validators. -/
structure LinuxVM where
  fileExists : List Char → Bool
  readFile : List Char → List Char
  hasDirWithFile : List Char → Bool
  findFileContaining : List Char → List Char → Bool

/-- Oracle for the JS regex runtime: `compile pattern = none` models
`new RegExp(pattern)` throwing a `SyntaxError` (caught by the validator),
`some test` models a successfully constructed regex and its `test`. -/
structure RegExpOracle where
  compile : List Char → Option (List Char → Bool)

namespace OutputValidator

/-- Embedding of the validator's `ok()` helper with its default message. -/
def ok : ValidationResult := ⟨true, "Correct!"⟩

/-- Embedding of `ok(message)` with an explicit message. -/
def okMsg (message : String) : ValidationResult := ⟨true, message⟩

/-- Embedding of the validator's `fail(message)` helper. -/
def fail (message : String) : ValidationResult := ⟨false, message⟩

/-- Embedding of `checkOutputEquals`. -/
def checkOutputEquals (result : CommandResult) (expected : List Char) : ValidationResult :=
  if jsTrim result.stdout = jsTrim expected then ok
  else fail "Output doesn't match expected result."

/-- Embedding of `checkOutputContains` (tests the combined
`stdout + stderr` stream). -/
def checkOutputContains (result : CommandResult) (expected : List Char) : ValidationResult :=
  let combined := result.stdout ++ result.stderr
  if jsIncludes combined (jsTrim expected) then ok
  else fail "Output doesn't contain expected text."

/-- Embedding of `checkOutputRegex`. -/
def checkOutputRegex (regex : RegExpOracle) (result : CommandResult)
    (expected : List Char) : ValidationResult :=
  let combined := result.stdout ++ result.stderr
  match regex.compile expected with
  | none => fail "Invalid regex pattern."
  | some test => if test combined then ok else fail "Output doesn't match expected pattern."

/-- Embedding of `checkExitCode`. -/
def checkExitCode (result : CommandResult) (expected : List Char) : ValidationResult :=
  match jsParseInt (jsTrim expected) with
  | none => fail "Invalid expected exit code."
  | some expectedCode =>
    if result.returncode = expectedCode then ok
    else fail ("Expected exit code " ++ toString expectedCode ++ ", got " ++
               toString result.returncode ++ ".")

/-- The fixed sandbox root. -/
def sandboxRoot : List Char := "/home/student".data

/-- Embedding of `resolvePaths(filename, cwd)`. -/
def resolvePaths (filename : List Char) (cwd : List Char) : List (List Char) :=
  let paths := [sandboxRoot ++ '/' :: filename]
  if cwd ≠ [] ∧ cwd ≠ sandboxRoot then paths ++ [cwd ++ '/' :: filename] else paths

/-- Embedding of `checkFileExists`. -/
def checkFileExists (vm : LinuxVM) (expected : List Char) (cwd : List Char) :
    ValidationResult :=
  let paths := resolvePaths (jsTrim expected) cwd
  if paths.any vm.fileExists then okMsg "Correct! File created."
  else fail ("File '" ++ String.mk expected ++ "' not found.")

/-- The `for (const p of paths)` loop of `checkFileContains`. -/
def fileContainsLoop (vm : LinuxVM) (content : List Char) (filename : List Char) :
    List (List Char) → ValidationResult
  | [] => fail ("File '" ++ String.mk (jsTrim filename) ++ "' not found.")
  | p :: rest =>
    if vm.fileExists p then
      if jsIncludes (vm.readFile p) (jsTrim content) then
        okMsg "Correct! File contains expected content."
      else fail "File doesn't contain expected content."
    else fileContainsLoop vm content filename rest

/-- Embedding of `checkFileContains`: `expected` is `<path>::<needle>`. -/
def checkFileContains (vm : LinuxVM) (expected : List Char) (cwd : List Char) :
    ValidationResult :=
  if ¬ jsIncludes expected "::".data then fail "Invalid file_contains spec."
  else
    let parts := (jsSplitStr expected "::".data).take 2
    let filename := parts.getD 0 []
    let content := parts.getD 1 []
    fileContainsLoop vm content filename (resolvePaths (jsTrim filename) cwd)

/-- Embedding of `checkDirWithFile`. -/
def checkDirWithFile (vm : LinuxVM) (cwd : List Char) : ValidationResult :=
  if vm.hasDirWithFile sandboxRoot then okMsg "Correct! Directory with file created."
  else fail ("No directory containing a file was found. " ++
             "Create a directory and then create a file inside it.")

/-- Embedding of `checkAnyFileContains`. -/
def checkAnyFileContains (vm : LinuxVM) (expected : List Char) (cwd : List Char) :
    ValidationResult :=
  if vm.findFileContaining sandboxRoot (jsTrim expected) then
    okMsg "Correct! File contains expected content."
  else fail ("No file found containing '" ++ String.mk (jsTrim expected) ++ "'.")

/-- Embedding of `checkCwdRegex`. -/
def checkCwdRegex (regex : RegExpOracle) (expected : List Char) (cwd : List Char) :
    ValidationResult :=
  if cwd = [] then fail "Cannot determine current directory."
  else
    match regex.compile expected with
    | none => fail "Invalid regex pattern."
    | some test => if test cwd then ok else fail "You haven't changed into the right directory yet."

/-- Embedding of `OutputValidator.validate(exercise, result)`: dispatch on
`validation_type`. -/
def validate (regex : RegExpOracle) (vm : LinuxVM) (exercise : Exercise)
    (result : CommandResult) : ValidationResult :=
  let vtype := exercise.validation_type
  let expected := exercise.expected
  if vtype = "output_equals" then checkOutputEquals result expected
  else if vtype = "output_contains" then checkOutputContains result expected
  else if vtype = "output_regex" then checkOutputRegex regex result expected
  else if vtype = "exit_code" then checkExitCode result expected
  else if vtype = "file_exists" then checkFileExists vm expected result.cwd
  else if vtype = "file_contains" then checkFileContains vm expected result.cwd
  else if vtype = "dir_with_file" then checkDirWithFile vm result.cwd
  else if vtype = "any_file_contains" then checkAnyFileContains vm expected result.cwd
  else if vtype = "cwd_regex" then checkCwdRegex regex expected result.cwd
  else fail ("Unknown validation type: " ++ vtype)

end OutputValidator

/-- Which guard of `App.handleCommand` fired, or `proceed` when validation
goes ahead. -/
inductive GuardOutcome where
  | skipValidating
  | skipNoLesson
  | skipPastEnd
  | skipCompleted
  | skipEmptyEnter
  | proceed
deriving DecidableEq, Repr

/-- The slice of `App` state read by the `handleCommand` guard chain
(`src/unnamed/part_014`): the `validating` flag, the current lesson's
exercises, and the current exercise index. -/
structure AppState where
  validating : Bool
  currentLesson : Option (List Exercise)
  currentExercise : Nat
deriving Repr

/-- The `exercise.attempts++` mutation on the current exercise. -/
def bumpAttempts : List Exercise → Nat → List Exercise
  | [], _ => []
  | e :: rest, 0 => { e with attempts := e.attempts + 1 } :: rest
  | e :: rest, n + 1 => e :: bumpAttempts rest n

/-- The four output validation kinds tested by guard step 5. -/
def isOutputKind (vt : String) : Bool :=
  vt == "output_equals" || vt == "output_contains" || vt == "output_regex" || vt == "exit_code"

/-- Embedding of the guard chain at the top of `App.handleCommand(result)`
up to and including `exercise.attempts++`: the guards short-circuit in
source order; on `proceed` the current exercise's attempts counter is
incremented. -/
def handleCommandGuard (app : AppState) (result : CommandResult) :
    GuardOutcome × AppState :=
  if app.validating then (GuardOutcome.skipValidating, app)
  else
    match app.currentLesson with
    | none => (GuardOutcome.skipNoLesson, app)
    | some exercises =>
      if h : exercises.length ≤ app.currentExercise then (GuardOutcome.skipPastEnd, app)
      else
        let exercise := exercises.get ⟨app.currentExercise, by omega⟩
        if exercise.completed then (GuardOutcome.skipCompleted, app)
        else
          let proceedSt : AppState :=
            { app with currentLesson := some (bumpAttempts exercises app.currentExercise) }
          if jsTrim result.stdout = [] ∧ result.returncode = 0 then
            if isOutputKind exercise.validation_type then (GuardOutcome.skipEmptyEnter, app)
            else (GuardOutcome.proceed, proceedSt)
          else (GuardOutcome.proceed, proceedSt)

/-- Well-shaped sentinel bodies: exactly the strings the capture group of
`SENTINEL_RE` can produce. -/
def bodyOk (body : List Char) : Prop :=
  body = CMD_START_SENTINEL ∨
  ∃ ds cw, body = CMD_END_SENTINEL ++ ':' :: ds ++ ':' :: cw ∧ ds ≠ [] ∧
    (∀ c ∈ ds, c.isDigit = true) ∧ (∀ c ∈ cw, c ≠ SENTINEL_CHAR)

open SentinelCapture

/-- The match loop's observable outcome with display parts joined. -/
def scanOneFlat (st : SentinelCapture) (data : List Char) :
    SentinelCapture × List OutEvent × List Char × List CommandResult :=
  let (st₁, e₁, p₁, r₁) := scanLoop st data
  (st₁, e₁, p₁.flatten, r₁)

/-- Two consecutive match-loop runs (with the partial buffer carried over
as `processOutput` does), observables concatenated. -/
def scanTwo (st : SentinelCapture) (a b : List Char) :
    SentinelCapture × List OutEvent × List Char × List CommandResult :=
  let (st₁, e₁, p₁, r₁) := scanLoop st a
  let (st₂, e₂, p₂, r₂) := scanLoop { st₁ with partialBuffer := [] } (st₁.partialBuffer ++ b)
  (st₂, e₁ ++ e₂, p₁.flatten ++ p₂.flatten, r₁ ++ r₂)

/-- Whether an event is a command-callback invocation. -/
def isCommandEv : OutEvent → Bool
  | OutEvent.command _ => true
  | _ => false

/-- Whether an event is a display-callback invocation. -/
def isDisplayEv : OutEvent → Bool
  | OutEvent.display _ => true
  | _ => false

/-- A whole serial session: feed every chunk through `processOutput`, then
let the 50 ms partial-buffer safety timer settle. -/
def runAll (st : SentinelCapture) (chunks : List (List Char)) :
    SentinelCapture × List OutEvent :=
  let (st₁, evs₁) := SentinelCapture.runChunks st chunks
  let (st₂, evs₂) := SentinelCapture.partialTimerFire st₁
  (st₂, evs₁ ++ evs₂)

/-- The XP multiplier exactly as the spec words it: start at 1.00, add
0.10 × (difficulty − 1), add 0.50 on a first try, subtract the hint
penalty (0 → 0.00, 1 → 0.10, 2 → 0.30, 3 or more → 0.50), floor the
multiplier at 0.25. -/
def specMultiplier (difficulty : ℚ) (firstTry : Bool) (hintsUsed : Nat) : ℚ :=
  let penalty : ℚ :=
    if hintsUsed = 0 then 0
    else if hintsUsed = 1 then 1/10
    else if hintsUsed = 2 then 3/10
    else 1/2
  max (1 + (1/10) * (difficulty - 1) + (if firstTry then 1/2 else 0) - penalty) (1/4)

/-- The `handleCommand` guard chain exactly as the spec words it: five
short-circuit guards in the stated order, with guard 5 requiring an
output-kind validation AND empty trimmed stdout AND return code 0, and
`attempts` bumped only when validation proceeds. -/
def handleCommandGuardSpec (app : AppState) (result : CommandResult) :
    GuardOutcome × AppState :=
  if app.validating then (GuardOutcome.skipValidating, app)
  else
    match app.currentLesson with
    | none => (GuardOutcome.skipNoLesson, app)
    | some exercises =>
      if h : exercises.length ≤ app.currentExercise then (GuardOutcome.skipPastEnd, app)
      else
        let exercise := exercises.get ⟨app.currentExercise, by omega⟩
        if exercise.completed then (GuardOutcome.skipCompleted, app)
        else if isOutputKind exercise.validation_type ∧ jsTrim result.stdout = [] ∧
            result.returncode = 0 then
          (GuardOutcome.skipEmptyEnter, app)
        else
          (GuardOutcome.proceed,
           { app with currentLesson := some (bumpAttempts exercises app.currentExercise) })

/-- A post-boot parser state used in the concrete examples below: ready,
capturing, empty capture buffer, nothing queued, not muted. -/
def exampleState : SentinelCapture :=
  { capturing := true, capturedChunks := [], cwd := "/home/student".data,
    skipCaptures := 0, ready := true, pendingMessages := [],
    displayQueue := [], partialBuffer := [], muteSerial := false }

/-- A serial chunk `<output> CMD_END:0:<cwd> <prompt-bytes> CMD_START`. -/
def exampleChunk : List Char :=
  "out\r\n".data
    ++ SENTINEL_CHAR :: (CMD_END_SENTINEL ++ ":0:/home/student".data)
    ++ SENTINEL_CHAR :: "$ ".data
    ++ SENTINEL_CHAR :: CMD_START_SENTINEL ++ [SENTINEL_CHAR]

/-- `exampleChunk` cut in the middle of the `CMD_END` sentinel: first part. -/
def exampleSplitA : List Char :=
  "out\r\n".data ++ SENTINEL_CHAR :: "__CLITUTOR_CMD_EN".data

/-- `exampleChunk` cut in the middle of the `CMD_END` sentinel: second part. -/
def exampleSplitB : List Char :=
  "D__:0:/home/student".data ++ SENTINEL_CHAR :: "$ ".data
    ++ SENTINEL_CHAR :: CMD_START_SENTINEL ++ [SENTINEL_CHAR]

/-- An exercise whose `exit_code` expectation is not a parseable integer. -/
def exampleExercise : Exercise :=
  { id := "e1", title := "t", xp := 20, difficulty := 1, sandbox_setup := none,
    validation_type := "exit_code", expected := "abc".data, hints := [],
    attempts := 0, first_try := true, hints_used := 0, completed := false }

/-- A trivial filesystem oracle. -/
def exampleVM : LinuxVM :=
  { fileExists := fun _ => false, readFile := fun _ => [],
    hasDirWithFile := fun _ => false, findFileContaining := fun _ _ => false }

/-- A regex oracle on which every pattern fails to compile. -/
def exampleRegex : RegExpOracle :=
  { compile := fun _ => none }

/-- A parser state with a queued system message awaiting its atomic flush. -/
def exampleQueuedState : SentinelCapture :=
  { SentinelCapture.init with displayQueue := ["msg".data] }

/-- The shared 15-character stem of the two sentinel literals. -/
def CMD_COMMON : List Char := "__CLITUTOR_CMD_".data

theorem cmd_start_decomp : CMD_START_SENTINEL = CMD_COMMON ++ 'S' :: "TART__".data := by
  decide

theorem cmd_end_decomp : CMD_END_SENTINEL = CMD_COMMON ++ 'E' :: "ND__".data := by
  decide

theorem dropLit_eq_append {l x r : List Char} (h : dropLit l x = some r) : x = l ++ r := by
  induction l generalizing x with
  | nil =>
    simp only [dropLit, Option.some.injEq] at h
    simp [h]
  | cons a l ih =>
    cases x with
    | nil => simp [dropLit] at h
    | cons c cs =>
      by_cases hac : a = c
      · subst hac
        simp only [dropLit, if_pos rfl] at h
        simp [ih h]
      · simp [dropLit, hac] at h

theorem dropLit_self_append (l x : List Char) : dropLit l (l ++ x) = some x := by
  induction l with
  | nil => simp [dropLit]
  | cons a l ih => simp [dropLit, ih]

theorem dropLit_common (p l x : List Char) : dropLit (p ++ l) (p ++ x) = dropLit l x := by
  induction p with
  | nil => simp
  | cons a p ih => simp [dropLit, ih]

theorem takeWhile_app_of {p : Char → Bool} {ds : List Char} (c₀ : Char) (r : List Char)
    (h1 : ∀ c ∈ ds, p c = true) (h2 : p c₀ = false) :
    (ds ++ c₀ :: r).takeWhile p = ds := by
  induction ds with
  | nil => simp [List.takeWhile_cons, h2]
  | cons a l ih =>
    have ha : p a = true := h1 a (by simp)
    simp [List.takeWhile_cons, ha, ih (fun c hc => h1 c (by simp [hc]))]

theorem dropWhile_app_of {p : Char → Bool} {ds : List Char} (c₀ : Char) (r : List Char)
    (h1 : ∀ c ∈ ds, p c = true) (h2 : p c₀ = false) :
    (ds ++ c₀ :: r).dropWhile p = c₀ :: r := by
  induction ds with
  | nil => simp [List.dropWhile_cons, h2]
  | cons a l ih =>
    have ha : p a = true := h1 a (by simp)
    simp [List.dropWhile_cons, ha, ih (fun c hc => h1 c (by simp [hc]))]

theorem dropWhile_head_false {p : Char → Bool} {l x : List Char} {c : Char}
    (h : l.dropWhile p = c :: x) : p c = false := by
  induction l with
  | nil => simp at h
  | cons a l ih =>
    cases hpa : p a with
    | true => exact ih (by simpa [List.dropWhile_cons, hpa] using h)
    | false =>
      have hac : a = c ∧ l = x := by simpa [List.dropWhile_cons, hpa] using h
      rw [← hac.1]
      exact hpa

theorem mem_takeWhile_true {p : Char → Bool} {l : List Char} {c : Char}
    (h : c ∈ l.takeWhile p) : p c = true := by
  induction l with
  | nil => simp at h
  | cons a l ih =>
    cases hpa : p a with
    | true =>
      rcases (by simpa [List.takeWhile_cons, hpa] using h : c = a ∨ c ∈ l.takeWhile p) with
        rfl | hm
      · exact hpa
      · exact ih hm
    | false => simp [List.takeWhile_cons, hpa] at h


theorem notUS_eq_false {c : Char} : notUS c = false ↔ c = SENTINEL_CHAR := by
  simp [notUS]

theorem notUS_eq_true {c : Char} : notUS c = true ↔ c ≠ SENTINEL_CHAR := by
  simp [notUS]

theorem matchAt_recon {cs body rest : List Char}
    (h : matchSentinelAt cs = some (body, rest)) :
    cs = SENTINEL_CHAR :: body ++ SENTINEL_CHAR :: rest ∧ bodyOk body := by
  cases cs with
  | nil => simp [matchSentinelAt] at h
  | cons c cs' =>
    by_cases hus : c = SENTINEL_CHAR
    case neg => simp [matchSentinelAt, hus] at h
    subst hus
    rcases h1 : dropLit (CMD_START_SENTINEL ++ [SENTINEL_CHAR]) cs' with _ | r₀
    · rcases h2 : dropLit (CMD_END_SENTINEL ++ [':']) cs' with _ | cs₂
      · simp [matchSentinelAt, h1, h2] at h
      · have hcs' : cs' = (CMD_END_SENTINEL ++ [':']) ++ cs₂ := dropLit_eq_append h2
        by_cases hd : cs₂.takeWhile Char.isDigit = []
        · simp [matchSentinelAt, h1, h2, hd] at h
        · rcases h3 : cs₂.dropWhile Char.isDigit with _ | ⟨c₃, cs₄⟩
          · simp [matchSentinelAt, h1, h2, hd, h3] at h
          · by_cases hc₃ : c₃ = ':'
            · subst hc₃
              rcases h4 : cs₄.dropWhile notUS with _ | ⟨u, cs₆⟩
              · simp [matchSentinelAt, h1, h2, hd, h3, h4] at h
              · have hu : u = SENTINEL_CHAR := notUS_eq_false.mp (dropWhile_head_false h4)
                subst hu
                have hmain : CMD_END_SENTINEL ++ ':' ::
                    (cs₂.takeWhile Char.isDigit ++ ':' :: cs₄.takeWhile notUS) = body ∧
                    cs₆ = rest := by
                  simpa [matchSentinelAt, h1, h2, hd, h3, h4] using h
                obtain ⟨hb, hr⟩ := hmain
                have hsplit₂ : cs₂ = cs₂.takeWhile Char.isDigit ++ (':' :: cs₄) := by
                  conv_lhs => rw [← List.takeWhile_append_dropWhile Char.isDigit cs₂]
                  rw [h3]
                have hsplit₄ : cs₄ = cs₄.takeWhile notUS ++ (SENTINEL_CHAR :: cs₆) := by
                  conv_lhs => rw [← List.takeWhile_append_dropWhile notUS cs₄]
                  rw [h4]
                constructor
                · rw [← hb, ← hr, hcs']
                  conv_lhs => rw [hsplit₂]
                  conv_lhs => rw [hsplit₄]
                  simp
                · right
                  refine ⟨cs₂.takeWhile Char.isDigit, cs₄.takeWhile notUS, hb.symm, hd, ?_, ?_⟩
                  · exact fun c hc => mem_takeWhile_true hc
                  · exact fun c hc => notUS_eq_true.mp (mem_takeWhile_true hc)
            · simp [matchSentinelAt, h1, h2, hd, h3, hc₃] at h
    · have hcs' : cs' = CMD_START_SENTINEL ++ SENTINEL_CHAR :: r₀ := by
        have := dropLit_eq_append h1
        simpa using this
      have hmain : CMD_START_SENTINEL = body ∧ r₀ = rest := by
        simpa [matchSentinelAt, h1] using h
      obtain ⟨hb, hr⟩ := hmain
      constructor
      · rw [← hb, ← hr, hcs']
        simp
      · left; exact hb.symm

theorem matchAt_canon {body : List Char} (rest : List Char) (hb : bodyOk body) :
    matchSentinelAt (SENTINEL_CHAR :: body ++ SENTINEL_CHAR :: rest) = some (body, rest) := by
  rcases hb with rfl | ⟨ds, cw, rfl, hne, hds, hcw⟩
  · have h1 : dropLit (CMD_START_SENTINEL ++ [SENTINEL_CHAR])
        (CMD_START_SENTINEL ++ SENTINEL_CHAR :: rest) = some rest := by
      have := dropLit_self_append (CMD_START_SENTINEL ++ [SENTINEL_CHAR]) rest
      simpa using this
    simp [matchSentinelAt, h1]
  · obtain ⟨d, ds', rfl⟩ : ∃ d ds', ds = d :: ds' := by
      cases ds with
      | nil => exact absurd rfl hne
      | cons d ds' => exact ⟨d, ds', rfl⟩
    have hd : d.isDigit = true := hds d (by simp)
    have h1 : dropLit (CMD_START_SENTINEL ++ [SENTINEL_CHAR])
        ((CMD_END_SENTINEL ++ ':' :: (d :: ds') ++ ':' :: cw) ++ SENTINEL_CHAR :: rest)
        = none := by
      have e1 : CMD_START_SENTINEL ++ [SENTINEL_CHAR]
          = CMD_COMMON ++ 'S' :: ("TART__".data ++ [SENTINEL_CHAR]) := by
        rw [cmd_start_decomp]; simp
      have e2 : (CMD_END_SENTINEL ++ ':' :: (d :: ds') ++ ':' :: cw) ++ SENTINEL_CHAR :: rest
          = CMD_COMMON ++ 'E' :: ("ND__".data ++ ':' :: (d :: ds') ++ ':' :: cw ++
              SENTINEL_CHAR :: rest) := by
        rw [cmd_end_decomp]; simp
      rw [e1, e2, dropLit_common]
      simp [dropLit]
    have h2 : dropLit (CMD_END_SENTINEL ++ [':'])
        ((CMD_END_SENTINEL ++ ':' :: (d :: ds') ++ ':' :: cw) ++ SENTINEL_CHAR :: rest)
        = some ((d :: ds') ++ ':' :: (cw ++ SENTINEL_CHAR :: rest)) := by
      have e3 : (CMD_END_SENTINEL ++ ':' :: (d :: ds') ++ ':' :: cw) ++ SENTINEL_CHAR :: rest
          = (CMD_END_SENTINEL ++ [':']) ++ ((d :: ds') ++ ':' :: (cw ++ SENTINEL_CHAR :: rest)) := by
        simp
      rw [e3, dropLit_self_append]
    have htake : ((d :: ds') ++ ':' :: (cw ++ SENTINEL_CHAR :: rest)).takeWhile Char.isDigit
        = d :: ds' := takeWhile_app_of ':' _ hds (by decide)
    have hdrop : ((d :: ds') ++ ':' :: (cw ++ SENTINEL_CHAR :: rest)).dropWhile Char.isDigit
        = ':' :: (cw ++ SENTINEL_CHAR :: rest) :=
      dropWhile_app_of ':' _ hds (by decide)
    have hcw' : ∀ c ∈ cw, notUS c = true := fun c hc => notUS_eq_true.mpr (hcw c hc)
    have htake₂ : (cw ++ SENTINEL_CHAR :: rest).takeWhile notUS = cw :=
      takeWhile_app_of SENTINEL_CHAR _ hcw' (by simp [notUS])
    have hdrop₂ : (cw ++ SENTINEL_CHAR :: rest).dropWhile notUS = SENTINEL_CHAR :: rest :=
      dropWhile_app_of SENTINEL_CHAR _ hcw' (by simp [notUS])
    simp only [matchSentinelAt]
    simp only [List.append_assoc, List.cons_append] at h1 h2 htake hdrop htake₂ hdrop₂ ⊢
    simp only [h1, h2, htake, hdrop, htake₂, hdrop₂]
    simp [hd]

theorem bodyOk_not_us {body : List Char} (hb : bodyOk body) : SENTINEL_CHAR ∉ body := by
  rcases hb with rfl | ⟨ds, cw, rfl, hne, hds, hcw⟩
  · decide
  · intro hmem
    simp only [List.mem_append, List.mem_cons] at hmem
    rcases hmem with (h | h | h) | h | h
    · exact absurd h (by decide)
    · exact absurd h (by decide)
    · exact absurd (hds _ h) (by decide)
    · exact absurd h (by decide)
    · exact absurd rfl (hcw _ h)

theorem findSentinel_recon {data pre body rest : List Char}
    (h : findSentinel data = some (pre, body, rest)) :
    data = pre ++ SENTINEL_CHAR :: body ++ SENTINEL_CHAR :: rest ∧ bodyOk body := by
  induction data generalizing pre with
  | nil => simp [findSentinel] at h
  | cons c cs ih =>
    rcases hm : matchSentinelAt (c :: cs) with _ | ⟨b₀, r₀⟩
    · rcases hf : findSentinel cs with _ | ⟨⟨p', b', r'⟩⟩
      · simp [findSentinel, hm, hf] at h
      · have hh : c :: p' = pre ∧ b' = body ∧ r' = rest := by
          simpa [findSentinel, hm, hf] using h
        obtain ⟨hp, hb, hr⟩ := hh
        rw [hb, hr] at hf
        obtain ⟨hrecon, hok⟩ := ih hf
        refine ⟨?_, hok⟩
        rw [← hp, hrecon]
        simp
    · obtain ⟨hrec, hok⟩ := matchAt_recon hm
      have hh : ([] : List Char) = pre ∧ b₀ = body ∧ r₀ = rest := by
        simpa [findSentinel, hm] using h
      obtain ⟨hp, hb, hr⟩ := hh
      rw [← hp, ← hb, ← hr]
      exact ⟨by simpa using hrec, hok⟩

theorem matchAt_none_of_ne {c : Char} (cs : List Char) (h : c ≠ SENTINEL_CHAR) :
    matchSentinelAt (c :: cs) = none := by
  simp [matchSentinelAt, h]

theorem findSentinel_append_some {a pre body rest : List Char} (t : List Char)
    (h : findSentinel a = some (pre, body, rest)) :
    findSentinel (a ++ t) = some (pre, body, rest ++ t) := by
  induction a generalizing pre with
  | nil => simp [findSentinel] at h
  | cons c cs ih =>
    rcases hm : matchSentinelAt (c :: cs) with _ | ⟨b₀, r₀⟩
    · rcases hf : findSentinel cs with _ | ⟨⟨p', b', r'⟩⟩
      · simp [findSentinel, hm, hf] at h
      · have hh : c :: p' = pre ∧ b' = body ∧ r' = rest := by
          simpa [findSentinel, hm, hf] using h
        obtain ⟨hp, hb, hr⟩ := hh
        rw [hb, hr] at hf
        obtain ⟨hcsrec, _⟩ := findSentinel_recon hf
        have hm' : matchSentinelAt (c :: (cs ++ t)) = none := by
          rcases hmm : matchSentinelAt (c :: (cs ++ t)) with _ | ⟨bod, rst⟩
          · rfl
          · exfalso
            obtain ⟨hrec, hok⟩ := matchAt_recon hmm
            have hcus : c = SENTINEL_CHAR := by
              have := congrArg List.headI hrec
              simpa using this
            have htail : cs ++ t = bod ++ SENTINEL_CHAR :: rst := by
              have := congrArg List.tail hrec
              simpa using this
            by_cases hlen : bod.length + 1 ≤ cs.length
            · have hpre1 : (bod ++ [SENTINEL_CHAR]) <+: (cs ++ t) := ⟨rst, by simp [htail]⟩
              have hpre3 : (bod ++ [SENTINEL_CHAR]) <+: cs :=
                List.prefix_of_prefix_length_le hpre1 (List.prefix_append cs t)
                  (by simpa using hlen)
              obtain ⟨mid, hmid⟩ := hpre3
              have hcanon : matchSentinelAt (c :: cs) = some (bod, mid) := by
                rw [hcus, ← hmid]
                have e : SENTINEL_CHAR :: ((bod ++ [SENTINEL_CHAR]) ++ mid)
                    = SENTINEL_CHAR :: bod ++ SENTINEL_CHAR :: mid := by simp
                rw [e]
                exact matchAt_canon mid hok
              rw [hcanon] at hm
              exact Option.noConfusion hm
            · push_neg at hlen
              have hpre2 : bod <+: cs ++ t := ⟨SENTINEL_CHAR :: rst, htail.symm⟩
              have hcsbod : cs <+: bod :=
                List.prefix_of_prefix_length_le (List.prefix_append cs t) hpre2 (by omega)
              have husmem : SENTINEL_CHAR ∈ cs := by
                rw [hcsrec]; simp
              exact bodyOk_not_us hok (hcsbod.subset husmem)
        have ihr := ih hf
        have goal1 : findSentinel ((c :: cs) ++ t) = some (c :: p', body, rest ++ t) := by
          simp [findSentinel, hm', ihr]
        rw [← hp]
        exact goal1
    · obtain ⟨hrec, hok⟩ := matchAt_recon hm
      have hh : ([] : List Char) = pre ∧ b₀ = body ∧ r₀ = rest := by
        simpa [findSentinel, hm] using h
      obtain ⟨hp, hb, hr⟩ := hh
      have hform : c :: (cs ++ t) = SENTINEL_CHAR :: b₀ ++ SENTINEL_CHAR :: (r₀ ++ t) := by
        have e : (c :: cs) ++ t = (SENTINEL_CHAR :: b₀ ++ SENTINEL_CHAR :: r₀) ++ t := by
          rw [hrec]
        simpa using e
      have hm' : matchSentinelAt (c :: (cs ++ t)) = some (b₀, r₀ ++ t) := by
        rw [hform]
        exact matchAt_canon _ hok
      rw [← hp, ← hb, ← hr]
      simp [findSentinel, hm']

theorem findSentinel_not_us_append {a : List Char} (t : List Char)
    (ha : SENTINEL_CHAR ∉ a) :
    findSentinel (a ++ t) = (findSentinel t).map (fun x => (a ++ x.1, x.2.1, x.2.2)) := by
  induction a with
  | nil => cases hf : findSentinel t <;> simp [hf]
  | cons c cs ih =>
    have hc : c ≠ SENTINEL_CHAR := fun hh => ha (by simp [hh])
    have hm : matchSentinelAt (c :: (cs ++ t)) = none := matchAt_none_of_ne _ hc
    have ih' := ih (fun hm' => ha (by simp [hm']))
    have e : findSentinel ((c :: cs) ++ t) =
        match findSentinel (cs ++ t) with
        | some (pre, body, rest) => some (c :: pre, body, rest)
        | none => none := by
      simp [findSentinel, hm]
    rw [e, ih']
    cases hf : findSentinel t with
    | none => simp
    | some x => simp

theorem findSentinel_rest_length {data pre body rest : List Char}
    (h : findSentinel data = some (pre, body, rest)) : rest.length < data.length := by
  obtain ⟨hrec, _⟩ := findSentinel_recon h
  rw [hrec]
  simp
  omega

open SentinelCapture

theorem scanLoopF_fuel : ∀ (f₁ f₂ : Nat) (st : SentinelCapture) (data : List Char),
    data.length ≤ f₁ → data.length ≤ f₂ → scanLoopF f₁ st data = scanLoopF f₂ st data := by
  intro f₁
  induction f₁ with
  | zero =>
    intro f₂ st data h1 h2
    have hd : data = [] := List.length_eq_zero.mp (Nat.le_zero.mp h1)
    subst hd
    cases f₂ with
    | zero => rfl
    | succ f => simp [scanLoopF, findSentinel]
  | succ f ih =>
    intro f₂ st data h1 h2
    cases f₂ with
    | zero =>
      have hd : data = [] := List.length_eq_zero.mp (Nat.le_zero.mp h2)
      subst hd
      simp [scanLoopF, findSentinel]
    | succ f₂' =>
      simp only [scanLoopF]
      rcases hf : findSentinel data with _ | ⟨⟨pre, body, rest⟩⟩
      · rfl
      · have hlt := findSentinel_rest_length hf
        have e : ∀ st', scanLoopF f st' rest = scanLoopF f₂' st' rest :=
          fun st' => ih f₂' st' rest (by omega) (by omega)
        simp [e]

theorem scanLoop_none {st : SentinelCapture} {data : List Char}
    (hf : findSentinel data = none) : scanLoop st data = handleTail st data := by
  show scanLoopF data.length st data = handleTail st data
  rcases hn : data.length with _ | n
  · rfl
  · simp [scanLoopF, hf]

theorem scanLoop_some {st : SentinelCapture} {data pre body rest : List Char}
    (hf : findSentinel data = some (pre, body, rest)) :
    scanLoop st data =
      (let (st₁, parts₁) := pushSegment st pre
       let (st₂, evs₂, res₂) := handleSentinel st₁ body
       let (st₃, evs₃, parts₃, res₃) := scanLoop st₂ rest
       (st₃, evs₂ ++ evs₃, parts₁ ++ parts₃, res₂.toList ++ res₃)) := by
  have hlt := findSentinel_rest_length hf
  rcases hn : data.length with _ | n
  · have hd : data = [] := List.length_eq_zero.mp hn
    subst hd
    simp [findSentinel] at hf
  · show scanLoopF data.length st data = _
    rw [hn]
    simp only [scanLoopF, hf]
    have e : ∀ st', scanLoopF n st' rest = scanLoop st' rest := fun st' =>
      scanLoopF_fuel n rest.length st' rest (by omega) (le_refl _)
    simp only [e]

theorem removeSentinelsF_fuel : ∀ (f₁ f₂ : Nat) (data : List Char),
    data.length ≤ f₁ → data.length ≤ f₂ → removeSentinelsF f₁ data = removeSentinelsF f₂ data := by
  intro f₁
  induction f₁ with
  | zero =>
    intro f₂ data h1 h2
    have hd : data = [] := List.length_eq_zero.mp (Nat.le_zero.mp h1)
    subst hd
    cases f₂ with
    | zero => rfl
    | succ f => simp [removeSentinelsF, findSentinel]
  | succ f ih =>
    intro f₂ data h1 h2
    cases f₂ with
    | zero =>
      have hd : data = [] := List.length_eq_zero.mp (Nat.le_zero.mp h2)
      subst hd
      simp [removeSentinelsF, findSentinel]
    | succ f₂' =>
      simp only [removeSentinelsF]
      rcases hf : findSentinel data with _ | ⟨⟨pre, body, rest⟩⟩
      · rfl
      · have hlt := findSentinel_rest_length hf
        show pre ++ removeSentinelsF f rest = pre ++ removeSentinelsF f₂' rest
        rw [ih f₂' rest (by omega) (by omega)]

theorem removeSentinels_none {data : List Char}
    (hf : findSentinel data = none) : removeSentinels data = data := by
  show removeSentinelsF data.length data = data
  rcases hn : data.length with _ | n
  · rfl
  · simp [removeSentinelsF, hf]

theorem removeSentinels_some {data pre body rest : List Char}
    (hf : findSentinel data = some (pre, body, rest)) :
    removeSentinels data = pre ++ removeSentinels rest := by
  have hlt := findSentinel_rest_length hf
  rcases hn : data.length with _ | n
  · have hd : data = [] := List.length_eq_zero.mp hn
    subst hd
    simp [findSentinel] at hf
  · show removeSentinelsF data.length data = _
    rw [hn]
    simp only [removeSentinelsF, hf]
    show pre ++ removeSentinelsF n rest = _
    rw [removeSentinelsF_fuel n rest.length rest (by omega) (le_refl _)]
    rfl

theorem hasStartF_fuel : ∀ (f₁ f₂ : Nat) (data : List Char),
    data.length ≤ f₁ → data.length ≤ f₂ → hasStartF f₁ data = hasStartF f₂ data := by
  intro f₁
  induction f₁ with
  | zero =>
    intro f₂ data h1 h2
    have hd : data = [] := List.length_eq_zero.mp (Nat.le_zero.mp h1)
    subst hd
    cases f₂ with
    | zero => rfl
    | succ f => simp [hasStartF, findSentinel]
  | succ f ih =>
    intro f₂ data h1 h2
    cases f₂ with
    | zero =>
      have hd : data = [] := List.length_eq_zero.mp (Nat.le_zero.mp h2)
      subst hd
      simp [hasStartF, findSentinel]
    | succ f₂' =>
      simp only [hasStartF]
      rcases hf : findSentinel data with _ | ⟨⟨pre, body, rest⟩⟩
      · rfl
      · have hlt := findSentinel_rest_length hf
        show (decide (body = CMD_START_SENTINEL) || hasStartF f rest)
            = (decide (body = CMD_START_SENTINEL) || hasStartF f₂' rest)
        rw [ih f₂' rest (by omega) (by omega)]

theorem hasStart_none {data : List Char}
    (hf : findSentinel data = none) : hasStart data = false := by
  show hasStartF data.length data = false
  rcases hn : data.length with _ | n
  · rfl
  · simp [hasStartF, hf]

theorem hasStart_some {data pre body rest : List Char}
    (hf : findSentinel data = some (pre, body, rest)) :
    hasStart data = (decide (body = CMD_START_SENTINEL) || hasStart rest) := by
  have hlt := findSentinel_rest_length hf
  rcases hn : data.length with _ | n
  · have hd : data = [] := List.length_eq_zero.mp hn
    subst hd
    simp [findSentinel] at hf
  · show hasStartF data.length data = _
    rw [hn]
    simp only [hasStartF, hf]
    show (decide (body = CMD_START_SENTINEL) || hasStartF n rest) = _
    rw [hasStartF_fuel n rest.length rest (by omega) (le_refl _)]
    rfl

theorem takeWhile_all {p : Char → Bool} {l : List Char} (h : ∀ c ∈ l, p c = true) :
    l.takeWhile p = l := by
  induction l with
  | nil => rfl
  | cons a l ih =>
    simp [List.takeWhile_cons, h a (by simp), ih (fun c hc => h c (by simp [hc]))]

theorem dropWhile_all {p : Char → Bool} {l : List Char} (h : ∀ c ∈ l, p c = true) :
    l.dropWhile p = [] := by
  induction l with
  | nil => rfl
  | cons a l ih =>
    simp [List.dropWhile_cons, h a (by simp), ih (fun c hc => h c (by simp [hc]))]

theorem takeWhile_append_all {p : Char → Bool} {x : List Char} (y : List Char)
    (h : ∀ c ∈ x, p c = true) : (x ++ y).takeWhile p = x ++ y.takeWhile p := by
  induction x with
  | nil => rfl
  | cons a l ih =>
    simp [List.takeWhile_cons, h a (by simp), ih (fun c hc => h c (by simp [hc]))]

theorem dropWhile_append_all {p : Char → Bool} {x : List Char} (y : List Char)
    (h : ∀ c ∈ x, p c = true) : (x ++ y).dropWhile p = y.dropWhile p := by
  induction x with
  | nil => rfl
  | cons a l ih =>
    simp [List.dropWhile_cons, h a (by simp), ih (fun c hc => h c (by simp [hc]))]

theorem pushSegment_partialBuffer (st : SentinelCapture) (seg : List Char) :
    (pushSegment st seg).1.partialBuffer = st.partialBuffer := by
  unfold pushSegment
  by_cases h : seg = [] <;> by_cases hc : st.capturing <;> by_cases hm : st.muteSerial <;>
    simp [h, hc, hm]

theorem pushSegment_pending (st : SentinelCapture) (seg : List Char) :
    (pushSegment st seg).1.pendingMessages = st.pendingMessages := by
  unfold pushSegment
  by_cases h : seg = [] <;> by_cases hc : st.capturing <;> by_cases hm : st.muteSerial <;>
    simp [h, hc, hm]

theorem handleSentinel_partialBuffer (st : SentinelCapture) (body : List Char) :
    (handleSentinel st body).1.partialBuffer = st.partialBuffer := by
  unfold handleSentinel finishCapture flushPendingMessages
  by_cases h1 : body = CMD_START_SENTINEL <;>
    by_cases h2 : (CMD_END_SENTINEL ++ [':']).isPrefixOf body <;>
    simp [h1, h2] <;> split <;> simp_all <;> split <;> simp_all <;> split <;> simp_all

theorem pushSegment_comp (st : SentinelCapture) (x y : List Char) :
    (pushSegment (pushSegment st x).1 y).1 = (pushSegment st (x ++ y)).1 ∧
    ((pushSegment st x).2 ++ (pushSegment (pushSegment st x).1 y).2).flatten
      = ((pushSegment st (x ++ y)).2).flatten := by
  by_cases hx : x = []
  · subst hx
    simp [pushSegment]
  · by_cases hy : y = []
    · subst hy
      simp [pushSegment, hx]
    · have hxy : x ++ y ≠ [] := by simp [hx]
      unfold pushSegment
      by_cases hc : st.capturing <;> by_cases hm : st.muteSerial <;>
        simp [hx, hy, hxy, hc, hm]

theorem partialBuffer_eta {st : SentinelCapture} (h : st.partialBuffer = []) :
    { st with partialBuffer := [] } = st := by
  rw [← h]

theorem scanLoop_nil (st : SentinelCapture) : scanLoop st [] = (st, [], [], []) := by
  rw [scanLoop_none (by rfl)]
  simp [handleTail]

theorem notUS_head_of_dropWhile {a u : List Char}
    (h : a.dropWhile notUS = u) (hne : u ≠ []) :
    ∃ u', u = SENTINEL_CHAR :: u' := by
  rcases u with _ | ⟨c, u'⟩
  · exact absurd rfl hne
  · exact ⟨u', by rw [notUS_eq_false.mp (dropWhile_head_false h)]⟩

theorem scanFlat_append : ∀ (n : Nat) (st : SentinelCapture) (a b : List Char),
    a.length ≤ n → st.partialBuffer = [] →
    scanOneFlat st (a ++ b) = scanTwo st a b := by
  intro n
  induction n with
  | zero =>
    intro st a b ha hp
    have ha0 : a = [] := List.length_eq_zero.mp (Nat.le_zero.mp ha)
    subst ha0
    simp only [scanOneFlat, scanTwo, List.nil_append, scanLoop_nil, hp,
      partialBuffer_eta hp]
    rcases hb : scanLoop st b with ⟨stB, eB, pB, rB⟩
    simp
  | succ n ih =>
    intro st a b ha hp
    rcases hf : findSentinel a with _ | ⟨⟨pre, body, rest⟩⟩
    · -- no complete sentinel in `a`
      by_cases ha0 : a = []
      · subst ha0
        simp only [scanOneFlat, scanTwo, List.nil_append, scanLoop_nil, hp,
          partialBuffer_eta hp]
        rcases hb : scanLoop st b with ⟨stB, eB, pB, rB⟩
        simp
      · by_cases hus : SENTINEL_CHAR ∈ a
        · -- a = t₀ ++ u with u starting at the first 0x1F
          have ht₀mem : ∀ c ∈ a.takeWhile notUS, notUS c = true := fun c hc =>
            mem_takeWhile_true hc
          have ht₀us : SENTINEL_CHAR ∉ a.takeWhile notUS := fun hc =>
            absurd (ht₀mem _ hc) (by simp [notUS])
          have hune : a.dropWhile notUS ≠ [] := by
            intro h0
            have : a.takeWhile notUS = a := by
              have := List.takeWhile_append_dropWhile notUS a
              rw [h0] at this
              simpa using this
            rw [← this] at hus
            exact ht₀us hus
          obtain ⟨u', hu'⟩ := notUS_head_of_dropWhile rfl hune
          have hadec : a = a.takeWhile notUS ++ a.dropWhile notUS :=
            (List.takeWhile_append_dropWhile notUS a).symm
          -- findSentinel u = none
          have hfu : findSentinel (a.dropWhile notUS) = none := by
            rcases hfu' : findSentinel (a.dropWhile notUS) with _ | ⟨⟨pu, bu, ru⟩⟩
            · rfl
            · exfalso
              have : findSentinel (a.takeWhile notUS ++ a.dropWhile notUS)
                  = some (a.takeWhile notUS ++ pu, bu, ru) := by
                rw [findSentinel_not_us_append _ ht₀us, hfu']
                rfl
              rw [← hadec, hf] at this
              exact Option.noConfusion this
          -- handleTail on a
          have hTa : handleTail st a =
              ({ (pushSegment st (a.takeWhile notUS)).1 with
                  partialBuffer := a.dropWhile notUS }, [],
                (pushSegment st (a.takeWhile notUS)).2, []) := by
            unfold handleTail
            simp [ha0, hune]
          have hpush : (pushSegment st (a.takeWhile notUS)).1.partialBuffer = [] := by
            rw [pushSegment_partialBuffer]
            exact hp
          rcases hfub : findSentinel (a.dropWhile notUS ++ b) with _ | ⟨⟨pu, bodyu, ru⟩⟩
          · -- no sentinel completes even with b appended
            have hfab : findSentinel (a ++ b) = none := by
              conv_lhs => rw [hadec]
              rw [List.append_assoc, findSentinel_not_us_append _ ht₀us, hfub]
              rfl
            -- both sides are pure tail pushes
            have hL : scanLoop st (a ++ b) = handleTail st (a ++ b) := scanLoop_none hfab
            have hTab : handleTail st (a ++ b) =
                ({ (pushSegment st (a.takeWhile notUS)).1 with
                    partialBuffer := a.dropWhile notUS ++ b }, [],
                  (pushSegment st (a.takeWhile notUS)).2, []) := by
              unfold handleTail
              have htw : (a ++ b).takeWhile notUS = a.takeWhile notUS := by
                conv_lhs => rw [hadec, hu']
                simp only [List.append_assoc, List.cons_append]
                rw [takeWhile_app_of SENTINEL_CHAR (u' ++ b) ht₀mem (by simp [notUS])]
              have hdw : (a ++ b).dropWhile notUS = a.dropWhile notUS ++ b := by
                conv_lhs => rw [hadec, hu']
                simp only [List.append_assoc, List.cons_append]
                rw [dropWhile_app_of SENTINEL_CHAR (u' ++ b) ht₀mem (by simp [notUS])]
                rw [hu']
                simp
              have hab0 : a ++ b ≠ [] := by simp [ha0]
              have habu : a.dropWhile notUS ++ b ≠ [] := by simp [hune]
              simp [hab0, htw, hdw, habu]
            -- second call of scanTwo
            have hsnd : scanLoop (pushSegment st (a.takeWhile notUS)).1
                (a.dropWhile notUS ++ b) =
                handleTail (pushSegment st (a.takeWhile notUS)).1
                  (a.dropWhile notUS ++ b) := scanLoop_none hfub
            have hTu : handleTail (pushSegment st (a.takeWhile notUS)).1
                (a.dropWhile notUS ++ b) =
                ({ (pushSegment st (a.takeWhile notUS)).1 with
                    partialBuffer := a.dropWhile notUS ++ b }, [], [], []) := by
              unfold handleTail
              have htw : (a.dropWhile notUS ++ b).takeWhile notUS = [] := by
                rw [hu']
                simp [List.takeWhile_cons, notUS]
              have hdw : (a.dropWhile notUS ++ b).dropWhile notUS
                  = a.dropWhile notUS ++ b := by
                rw [hu']
                simp [List.dropWhile_cons, notUS]
              have habu : a.dropWhile notUS ++ b ≠ [] := by simp [hune]
              simp [habu, htw, hdw, pushSegment]
            simp only [scanOneFlat, scanTwo, hL, hTab, scanLoop_none hf, hTa, hpush]
            rw [partialBuffer_eta hpush]
            simp only [hsnd, hTu]
            simp
          · -- a sentinel completes across the boundary
            have hfab : findSentinel (a ++ b)
                = some (a.takeWhile notUS ++ pu, bodyu, ru) := by
              conv_lhs => rw [hadec]
              rw [List.append_assoc, findSentinel_not_us_append _ ht₀us, hfub]
              rfl
            have hcomp := pushSegment_comp st (a.takeWhile notUS) pu
            rcases hps2 : pushSegment (pushSegment st (a.takeWhile notUS)).1 pu
              with ⟨stB, partsB⟩
            rcases hps3 : pushSegment st (a.takeWhile notUS ++ pu) with ⟨stB', partsAB⟩
            have hstB : stB' = stB := by
              have := hcomp.1
              rw [hps2, hps3] at this
              exact this.symm
            rcases hhs : handleSentinel stB bodyu with ⟨stC, evsC, resC⟩
            rcases hsc : scanLoop stC ru with ⟨stD, eD, pD, rD⟩
            simp only [scanOneFlat, scanTwo, scanLoop_some hfab, scanLoop_none hf, hTa,
              hps3, hstB, hhs, hsc, hpush]
            rw [partialBuffer_eta hpush]
            simp only [scanLoop_some hfub, hps2, hhs, hsc, Prod.mk.injEq]
            refine ⟨trivial, by simp, ?_, by simp⟩
            have hparts : (st.pushSegment (List.takeWhile notUS a)).2.flatten ++ partsB.flatten
                = partsAB.flatten := by
              have h0 := hcomp.2
              rw [hps2, hps3] at h0
              simpa [List.flatten_append] using h0
            simp [List.flatten_append, ← hparts, List.append_assoc]
        · -- 0x1F does not occur in a at all
          have hamem : ∀ c ∈ a, notUS c = true := fun c hc =>
            notUS_eq_true.mpr (fun hh => hus (hh ▸ hc))
          have hTa : handleTail st a = ((pushSegment st a).1, [], (pushSegment st a).2, []) := by
            unfold handleTail
            have htw : a.takeWhile notUS = a := takeWhile_all hamem
            have hdw : a.dropWhile notUS = [] := dropWhile_all hamem
            simp [ha0, htw, hdw]
          have hpush : (pushSegment st a).1.partialBuffer = [] := by
            rw [pushSegment_partialBuffer]; exact hp
          rcases hfb : findSentinel b with _ | ⟨⟨pb, bodyb, rb⟩⟩
          · -- nothing in b either
            have hfab : findSentinel (a ++ b) = none := by
              rw [findSentinel_not_us_append _ hus, hfb]
              rfl
            have hL : scanLoop st (a ++ b) = handleTail st (a ++ b) := scanLoop_none hfab
            have hsnd : scanLoop (pushSegment st a).1 b
                = handleTail (pushSegment st a).1 b := scanLoop_none hfb
            simp only [scanOneFlat, scanTwo, hL, scanLoop_none hf, hTa, hpush]
            rw [partialBuffer_eta hpush]
            simp only [List.nil_append, hsnd]
            by_cases hb0 : b = []
            · subst hb0
              have : handleTail (pushSegment st a).1 [] = ((pushSegment st a).1, [], [], []) := by
                unfold handleTail; simp
              simp only [List.append_nil, this]
              unfold handleTail
              have htw : a.takeWhile notUS = a := takeWhile_all hamem
              have hdw : a.dropWhile notUS = [] := dropWhile_all hamem
              simp [ha0, htw, hdw]
            · by_cases hbus : SENTINEL_CHAR ∈ b
              · -- b holds a 0x1F: both runs buffer from there
                have hbmem : ∀ c ∈ b.takeWhile notUS, notUS c = true := fun c hc =>
                  mem_takeWhile_true hc
                have hbune : b.dropWhile notUS ≠ [] := by
                  intro h0
                  have : b.takeWhile notUS = b := by
                    have := List.takeWhile_append_dropWhile notUS b
                    rw [h0] at this
                    simpa using this
                  rw [← this] at hbus
                  exact absurd (hbmem _ hbus) (by simp [notUS])
                have hTb : handleTail (pushSegment st a).1 b =
                    ({ (pushSegment (pushSegment st a).1 (b.takeWhile notUS)).1 with
                        partialBuffer := b.dropWhile notUS }, [],
                      (pushSegment (pushSegment st a).1 (b.takeWhile notUS)).2, []) := by
                  unfold handleTail
                  simp [hb0, hbune]
                have hTab : handleTail st (a ++ b) =
                    ({ (pushSegment st (a ++ b.takeWhile notUS)).1 with
                        partialBuffer := b.dropWhile notUS }, [],
                      (pushSegment st (a ++ b.takeWhile notUS)).2, []) := by
                  unfold handleTail
                  have htw : (a ++ b).takeWhile notUS = a ++ b.takeWhile notUS :=
                    takeWhile_append_all b hamem
                  have hdw : (a ++ b).dropWhile notUS = b.dropWhile notUS :=
                    dropWhile_append_all b hamem
                  have hab0 : a ++ b ≠ [] := by simp [ha0]
                  simp [hab0, htw, hdw, hbune]
                have hcomp := pushSegment_comp st a (b.takeWhile notUS)
                simp only [hTab, hTb, Prod.mk.injEq]
                refine ⟨?_, trivial, ?_, trivial⟩
                · rw [hcomp.1]
                · have h0 := hcomp.2
                  simp only [List.flatten_append] at h0
                  exact h0.symm
              · -- no 0x1F anywhere: everything is pushed
                have hbmem : ∀ c ∈ b, notUS c = true := fun c hc =>
                  notUS_eq_true.mpr (fun hh => hbus (hh ▸ hc))
                have habmem : ∀ c ∈ a ++ b, notUS c = true := by
                  intro c hc
                  rcases List.mem_append.mp hc with h | h
                  · exact hamem c h
                  · exact hbmem c h
                have hTab : handleTail st (a ++ b)
                    = ((pushSegment st (a ++ b)).1, [], (pushSegment st (a ++ b)).2, []) := by
                  unfold handleTail
                  have htw : (a ++ b).takeWhile notUS = a ++ b := takeWhile_all habmem
                  have hdw : (a ++ b).dropWhile notUS = [] := dropWhile_all habmem
                  have hab0 : a ++ b ≠ [] := by simp [ha0]
                  simp [hab0, htw, hdw]
                have hTb : handleTail (pushSegment st a).1 b
                    = ((pushSegment (pushSegment st a).1 b).1, [],
                        (pushSegment (pushSegment st a).1 b).2, []) := by
                  unfold handleTail
                  have htw : b.takeWhile notUS = b := takeWhile_all hbmem
                  have hdw : b.dropWhile notUS = [] := dropWhile_all hbmem
                  simp [hb0, htw, hdw]
                have hcomp := pushSegment_comp st a b
                simp only [hTab, hTb, Prod.mk.injEq]
                refine ⟨hcomp.1.symm, trivial, ?_, trivial⟩
                have h0 := hcomp.2
                simp only [List.flatten_append] at h0
                exact h0.symm
          · -- first sentinel of the whole stream lies in b
            have hfab : findSentinel (a ++ b) = some (a ++ pb, bodyb, rb) := by
              rw [findSentinel_not_us_append _ hus, hfb]
              rfl
            have hcomp := pushSegment_comp st a pb
            rcases hps2 : pushSegment (pushSegment st a).1 pb with ⟨stB, partsB⟩
            rcases hps3 : pushSegment st (a ++ pb) with ⟨stB', partsAB⟩
            have hstB : stB' = stB := by
              have := hcomp.1
              rw [hps2, hps3] at this
              exact this.symm
            rcases hhs : handleSentinel stB bodyb with ⟨stC, evsC, resC⟩
            rcases hsc : scanLoop stC rb with ⟨stD, eD, pD, rD⟩
            simp only [scanOneFlat, scanTwo, scanLoop_some hfab, scanLoop_none hf, hTa,
              hps3, hstB, hhs, hsc, hpush]
            rw [partialBuffer_eta hpush]
            simp only [List.nil_append, scanLoop_some hfb, hps2, hhs, hsc, Prod.mk.injEq]
            refine ⟨trivial, by simp, ?_, by simp⟩
            have hparts : (st.pushSegment a).2.flatten ++ partsB.flatten
                = partsAB.flatten := by
              have h0 := hcomp.2
              rw [hps2, hps3] at h0
              simpa [List.flatten_append] using h0
            simp [List.flatten_append, ← hparts, List.append_assoc]
    · -- a complete sentinel inside a: consume it on both sides and recurse
      have hfab := findSentinel_append_some b hf
      have hlt := findSentinel_rest_length hf
      rcases hps : pushSegment st pre with ⟨stA, partsA⟩
      rcases hhs : handleSentinel stA body with ⟨stB, evsB, resB⟩
      have hBpart : stB.partialBuffer = [] := by
        have h1 := pushSegment_partialBuffer st pre
        have h2 := handleSentinel_partialBuffer stA body
        rw [hps] at h1
        rw [hhs] at h2
        simp only at h1 h2
        rw [h2, h1, hp]
      have hIH := ih stB rest b (by omega) hBpart
      rcases hr1 : scanLoop stB rest with ⟨stC, eC, pC, rC⟩
      rcases hr2 : scanLoop { stC with partialBuffer := [] } (stC.partialBuffer ++ b)
        with ⟨stD, eD, pD, rD⟩
      rcases hr3 : scanLoop stB (rest ++ b) with ⟨stE, eE, pE, rE⟩
      have hIH' : stE = stD ∧ eE = eC ++ eD ∧ pE.flatten = pC.flatten ++ pD.flatten ∧
          rE = rC ++ rD := by
        have hthis := hIH
        simp only [scanOneFlat, scanTwo, hr1, hr2, hr3, Prod.mk.injEq] at hthis
        exact hthis
      simp only [scanOneFlat, scanTwo, scanLoop_some hfab, scanLoop_some hf, hps, hhs,
        hr1, hr2, hr3, Prod.mk.injEq]
      refine ⟨hIH'.1, by simp [hIH'.2.1], ?_, by simp [hIH'.2.2.2]⟩
      simp [hIH'.2.2.1, List.flatten_append]

theorem displayedText_append (x y : List OutEvent) :
    displayedText (x ++ y) = displayedText x ++ displayedText y := by
  induction x with
  | nil => rfl
  | cons e x ih => cases e <;> simp [displayedText, ih]

theorem commandsOf_append (x y : List OutEvent) :
    commandsOf (x ++ y) = commandsOf x ++ commandsOf y := by
  induction x with
  | nil => rfl
  | cons e x ih => cases e <;> simp [commandsOf, ih]

theorem displayedText_map_command (rs : List CommandResult) :
    displayedText (rs.map OutEvent.command) = [] := by
  induction rs with
  | nil => rfl
  | cons r rs ih => simp [displayedText, ih]

theorem commandsOf_map_command (rs : List CommandResult) :
    commandsOf (rs.map OutEvent.command) = rs := by
  induction rs with
  | nil => rfl
  | cons r rs ih => simp [commandsOf, ih]

theorem pushSegment_displayQueue (st : SentinelCapture) (seg : List Char) :
    (pushSegment st seg).1.displayQueue = st.displayQueue := by
  unfold pushSegment
  by_cases h : seg = [] <;> by_cases hc : st.capturing <;> by_cases hm : st.muteSerial <;>
    simp [h, hc, hm]

theorem handleSentinel_displayQueue (st : SentinelCapture) (body : List Char) :
    (handleSentinel st body).1.displayQueue = st.displayQueue := by
  unfold handleSentinel finishCapture flushPendingMessages
  by_cases h1 : body = CMD_START_SENTINEL <;>
    by_cases h2 : (CMD_END_SENTINEL ++ [':']).isPrefixOf body <;>
    simp [h1, h2] <;> split <;> simp_all <;> split <;> simp_all <;> split <;> simp_all

theorem handleSentinel_pending_nil (st : SentinelCapture) (body : List Char)
    (hp : st.pendingMessages = []) :
    (handleSentinel st body).1.pendingMessages = [] := by
  unfold handleSentinel finishCapture flushPendingMessages
  by_cases h1 : body = CMD_START_SENTINEL <;>
    by_cases h2 : (CMD_END_SENTINEL ++ [':']).isPrefixOf body <;>
    simp [h1, h2, hp] <;> split <;> simp_all <;> split <;> simp_all <;> split <;> simp_all

theorem handleSentinel_events_nil (st : SentinelCapture) (body : List Char)
    (hp : st.pendingMessages = []) :
    (handleSentinel st body).2.1 = [] ∨ (handleSentinel st body).2.1 = [OutEvent.ready] := by
  unfold handleSentinel finishCapture flushPendingMessages
  by_cases h1 : body = CMD_START_SENTINEL <;>
    by_cases h2 : (CMD_END_SENTINEL ++ [':']).isPrefixOf body <;>
    simp [h1, h2, hp] <;> split <;> simp_all <;> split <;> simp_all <;> split <;> simp_all

theorem handleTail_shape (st : SentinelCapture) (tail : List Char) :
    (handleTail st tail).2.1 = [] ∧ (handleTail st tail).2.2.2 = [] ∧
    (handleTail st tail).1.pendingMessages = st.pendingMessages ∧
    (handleTail st tail).1.displayQueue = st.displayQueue := by
  unfold handleTail
  by_cases h : tail = []
  · simp [h]
  · by_cases hu : tail.dropWhile notUS = [] <;>
      simp [h, hu, pushSegment_pending, pushSegment_displayQueue]

theorem scanLoopF_inv : ∀ (fuel : Nat) (st : SentinelCapture) (data : List Char),
    data.length ≤ fuel → st.pendingMessages = [] →
    (scanLoopF fuel st data).1.pendingMessages = [] ∧
    (scanLoopF fuel st data).1.displayQueue = st.displayQueue ∧
    displayedText (scanLoopF fuel st data).2.1 = [] ∧
    commandsOf (scanLoopF fuel st data).2.1 = [] := by
  intro fuel
  induction fuel with
  | zero =>
    intro st data hl hp
    have hd : data = [] := List.length_eq_zero.mp (Nat.le_zero.mp hl)
    subst hd
    have h := handleTail_shape st []
    simp only [scanLoopF]
    exact ⟨by rw [h.2.2.1, hp], h.2.2.2, by rw [h.1]; rfl, by rw [h.1]; rfl⟩
  | succ n ih =>
    intro st data hl hp
    rcases hf : findSentinel data with _ | ⟨⟨pre, body, rest⟩⟩
    · have h := handleTail_shape st data
      simp only [scanLoopF, hf]
      exact ⟨by rw [h.2.2.1, hp], h.2.2.2, by rw [h.1]; rfl, by rw [h.1]; rfl⟩
    · have hlt := findSentinel_rest_length hf
      rcases hps : pushSegment st pre with ⟨stA, partsA⟩
      rcases hhs : handleSentinel stA body with ⟨stB, evsB, resB⟩
      have hpa : stA.pendingMessages = [] := by
        have := pushSegment_pending st pre
        rw [hps] at this
        simp only at this
        rw [this, hp]
      have hqa : stA.displayQueue = st.displayQueue := by
        have := pushSegment_displayQueue st pre
        rw [hps] at this
        exact this
      have hpb : stB.pendingMessages = [] := by
        have := handleSentinel_pending_nil stA body hpa
        rw [hhs] at this
        exact this
      have hqb : stB.displayQueue = stA.displayQueue := by
        have := handleSentinel_displayQueue stA body
        rw [hhs] at this
        exact this
      have hev : evsB = [] ∨ evsB = [OutEvent.ready] := by
        have := handleSentinel_events_nil stA body hpa
        rw [hhs] at this
        exact this
      obtain ⟨i1, i2, i3, i4⟩ := ih stB rest (by omega) hpb
      simp only [scanLoopF, hf, hps, hhs]
      refine ⟨i1, by rw [i2, hqb, hqa], ?_, ?_⟩
      · rw [displayedText_append, i3]
        rcases hev with rfl | rfl <;> simp [displayedText]
      · rw [commandsOf_append, i4]
        rcases hev with rfl | rfl <;> simp [commandsOf]

theorem processOutput_spec (st : SentinelCapture) (data : List Char) :
    (processOutput st data).1
      = (scanLoop { st with displayQueue := [], partialBuffer := [] }
          (st.partialBuffer ++ data)).1 ∧
    displayedText (processOutput st data).2
      = st.displayQueue.flatten ++
        displayedText (scanLoop { st with displayQueue := [], partialBuffer := [] }
          (st.partialBuffer ++ data)).2.1 ++
        ((scanLoop { st with displayQueue := [], partialBuffer := [] }
          (st.partialBuffer ++ data)).2.2.1).flatten ∧
    commandsOf (processOutput st data).2
      = commandsOf (scanLoop { st with displayQueue := [], partialBuffer := [] }
          (st.partialBuffer ++ data)).2.1 ++
        (scanLoop { st with displayQueue := [], partialBuffer := [] }
          (st.partialBuffer ++ data)).2.2.2 := by
  rcases hsc : scanLoop { st with displayQueue := [], partialBuffer := [] }
      (st.partialBuffer ++ data) with ⟨stS, evS, pS, rS⟩
  unfold processOutput flushDisplayQueue
  by_cases hdq : st.displayQueue = []
  · rw [if_pos hdq]
    simp only [show ({ st with partialBuffer := [] } : SentinelCapture)
        = { st with displayQueue := [], partialBuffer := [] } by rw [hdq], hsc]
    by_cases hc : pS.flatten = []
    all_goals
      simp [hc, displayedText_append, commandsOf_append, displayedText,
        commandsOf, displayedText_map_command, commandsOf_map_command]
    all_goals
      intro l hl
      rw [hdq] at hl
      simp at hl
  · rw [if_neg hdq]
    simp only [show ({ { st with displayQueue := [] } with partialBuffer := [] } :
        SentinelCapture) = { st with displayQueue := [], partialBuffer := [] } from rfl, hsc]
    by_cases hc : pS.flatten = [] <;>
      simp [hc, displayedText_append, commandsOf_append, displayedText,
        commandsOf, displayedText_map_command, commandsOf_map_command]

theorem processOutput_append (st : SentinelCapture) (a b : List Char)
    (hpend : st.pendingMessages = []) :
    (processOutput st (a ++ b)).1 = (processOutput (processOutput st a).1 b).1 ∧
    displayedText (processOutput st (a ++ b)).2
      = displayedText (processOutput st a).2
        ++ displayedText (processOutput (processOutput st a).1 b).2 ∧
    commandsOf (processOutput st (a ++ b)).2
      = commandsOf (processOutput st a).2
        ++ commandsOf (processOutput (processOutput st a).1 b).2 := by
  obtain ⟨hS3, hD3, hC3⟩ := processOutput_spec st (a ++ b)
  obtain ⟨hS1, hD1, hC1⟩ := processOutput_spec st a
  rcases h1 : scanLoop { st with displayQueue := [], partialBuffer := [] }
      (st.partialBuffer ++ a) with ⟨s1, e1, p1, r1⟩
  rcases h2 : scanLoop { s1 with partialBuffer := [] } (s1.partialBuffer ++ b)
      with ⟨s2, e2, p2, r2⟩
  rcases h3 : scanLoop { st with displayQueue := [], partialBuffer := [] }
      (st.partialBuffer ++ (a ++ b)) with ⟨s3, e3, p3, r3⟩
  have hinv1 := scanLoopF_inv (st.partialBuffer ++ a).length
      { st with displayQueue := [], partialBuffer := [] } (st.partialBuffer ++ a)
      (le_refl _) hpend
  rw [show scanLoopF (st.partialBuffer ++ a).length
        { st with displayQueue := [], partialBuffer := [] } (st.partialBuffer ++ a)
      = scanLoop { st with displayQueue := [], partialBuffer := [] }
        (st.partialBuffer ++ a) from rfl, h1] at hinv1
  have hp1 : s1.pendingMessages = [] := by simpa using hinv1.1
  have hq1 : s1.displayQueue = [] := by simpa using hinv1.2.1
  have hd1 : displayedText e1 = [] := by simpa using hinv1.2.2.1
  have hc1 : commandsOf e1 = [] := by simpa using hinv1.2.2.2
  have hinv2 := scanLoopF_inv (s1.partialBuffer ++ b).length
      { s1 with partialBuffer := [] } (s1.partialBuffer ++ b) (le_refl _) hp1
  rw [show scanLoopF (s1.partialBuffer ++ b).length
        { s1 with partialBuffer := [] } (s1.partialBuffer ++ b)
      = scanLoop { s1 with partialBuffer := [] } (s1.partialBuffer ++ b) from rfl, h2] at hinv2
  have hd2 : displayedText e2 = [] := by simpa using hinv2.2.2.1
  have hc2 : commandsOf e2 = [] := by simpa using hinv2.2.2.2
  have hinv3 := scanLoopF_inv (st.partialBuffer ++ (a ++ b)).length
      { st with displayQueue := [], partialBuffer := [] } (st.partialBuffer ++ (a ++ b))
      (le_refl _) hpend
  rw [show scanLoopF (st.partialBuffer ++ (a ++ b)).length
        { st with displayQueue := [], partialBuffer := [] } (st.partialBuffer ++ (a ++ b))
      = scanLoop { st with displayQueue := [], partialBuffer := [] }
        (st.partialBuffer ++ (a ++ b)) from rfl, h3] at hinv3
  have hd3 : displayedText e3 = [] := by simpa using hinv3.2.2.1
  have hc3 : commandsOf e3 = [] := by simpa using hinv3.2.2.2
  have hlit : ({ s1 with displayQueue := [], partialBuffer := [] } : SentinelCapture)
      = { s1 with partialBuffer := [] } := by rw [← hq1]
  have hpo1 : (processOutput st a).1 = s1 := by rw [hS1, h1]
  have hstream := scanFlat_append (st.partialBuffer ++ a).length
      { st with displayQueue := [], partialBuffer := [] } (st.partialBuffer ++ a) b
      (le_refl _) rfl
  rw [show (st.partialBuffer ++ a) ++ b = st.partialBuffer ++ (a ++ b) by simp] at hstream
  simp only [scanOneFlat, scanTwo, h1, h2, h3, Prod.mk.injEq] at hstream
  obtain ⟨hs, he, hpp, hr⟩ := hstream
  have hD3' : displayedText (processOutput st (a ++ b)).2
      = st.displayQueue.flatten ++ displayedText e3 ++ p3.flatten := by
    rw [hD3, h3]
  have hC3' : commandsOf (processOutput st (a ++ b)).2 = commandsOf e3 ++ r3 := by
    rw [hC3, h3]
  have hD1' : displayedText (processOutput st a).2
      = st.displayQueue.flatten ++ displayedText e1 ++ p1.flatten := by
    rw [hD1, h1]
  have hC1' : commandsOf (processOutput st a).2 = commandsOf e1 ++ r1 := by
    rw [hC1, h1]
  obtain ⟨hS2, hD2, hC2⟩ := processOutput_spec s1 b
  have hS2' : (processOutput s1 b).1 = s2 := by rw [hS2, hlit, h2]
  have hD2' : displayedText (processOutput s1 b).2
      = s1.displayQueue.flatten ++ displayedText e2 ++ p2.flatten := by
    rw [hD2, hlit, h2]
  have hC2' : commandsOf (processOutput s1 b).2 = commandsOf e2 ++ r2 := by
    rw [hC2, hlit, h2]
  refine ⟨?_, ?_, ?_⟩
  · rw [hpo1, hS3, h3, hS2']
    exact hs
  · rw [hpo1, hD3', hD1', hD2', hd1, hd2, hd3, hq1, hpp]
    simp
  · rw [hpo1, hC3', hC1', hC2', hc1, hc2, hc3, hr]
    simp

theorem handleSentinel_events_cases (st : SentinelCapture) (body : List Char) :
    (handleSentinel st body).2.1 = [] ∨
    ∃ msgs : List (List Char), (handleSentinel st body).2.1
      = msgs.map (fun m => OutEvent.display (renderPendingMsg m)) ++ [OutEvent.ready] := by
  unfold handleSentinel finishCapture flushPendingMessages
  by_cases h1 : body = CMD_START_SENTINEL
  · simp [h1]
  · by_cases h2 : (CMD_END_SENTINEL ++ [':']).isPrefixOf body
    · simp only [h1, h2, ite_true, ite_false, if_neg, if_pos]
      split
      · split
        · simp
        · split
          · right
            exact ⟨[], by simp⟩
          · right
            exact ⟨st.pendingMessages, by simp⟩
      · simp
    · simp [h1, h2]

theorem handleSentinel_events_no_command (st : SentinelCapture) (body : List Char) :
    ∀ e ∈ (handleSentinel st body).2.1, isCommandEv e = false := by
  intro e he
  rcases handleSentinel_events_cases st body with h | ⟨msgs, h⟩
  · rw [h] at he
    simp at he
  · rw [h] at he
    rcases List.mem_append.mp he with h' | h'
    · obtain ⟨m, _, rfl⟩ := List.mem_map.mp h'
      rfl
    · simp at h'
      subst h'
      rfl

theorem scanLoopF_no_command : ∀ (fuel : Nat) (st : SentinelCapture) (data : List Char),
    ∀ e ∈ (scanLoopF fuel st data).2.1, isCommandEv e = false := by
  intro fuel
  induction fuel with
  | zero =>
    intro st data e he
    simp only [scanLoopF] at he
    rw [(handleTail_shape st data).1] at he
    simp at he
  | succ n ih =>
    intro st data e he
    rcases hf : findSentinel data with _ | ⟨⟨pre, body, rest⟩⟩
    · simp only [scanLoopF, hf] at he
      rw [(handleTail_shape st data).1] at he
      simp at he
    · rcases hps : pushSegment st pre with ⟨stA, partsA⟩
      rcases hhs : handleSentinel stA body with ⟨stB, evsB, resB⟩
      simp only [scanLoopF, hf, hps, hhs] at he
      rcases List.mem_append.mp he with h | h
      · have hnc := handleSentinel_events_no_command stA body
        rw [hhs] at hnc
        exact hnc e h
      · exact ih stB rest e h

theorem processOutput_trace (st : SentinelCapture) (data : List Char) :
    (processOutput st data).2
      = ((if st.displayQueue = [] then []
          else [OutEvent.display st.displayQueue.flatten])
        ++ (scanLoop { st with displayQueue := [], partialBuffer := [] }
              (st.partialBuffer ++ data)).2.1
        ++ (if ((scanLoop { st with displayQueue := [], partialBuffer := [] }
              (st.partialBuffer ++ data)).2.2.1).flatten = [] then []
            else [OutEvent.display ((scanLoop { st with displayQueue := [], partialBuffer := [] }
              (st.partialBuffer ++ data)).2.2.1).flatten]))
        ++ ((scanLoop { st with displayQueue := [], partialBuffer := [] }
              (st.partialBuffer ++ data)).2.2.2).map OutEvent.command := by
  rcases hsc : scanLoop { st with displayQueue := [], partialBuffer := [] }
      (st.partialBuffer ++ data) with ⟨stS, evS, pS, rS⟩
  unfold processOutput flushDisplayQueue
  by_cases hdq : st.displayQueue = []
  · rw [if_pos hdq]
    simp only [show ({ st with partialBuffer := [] } : SentinelCapture)
        = { st with displayQueue := [], partialBuffer := [] } by rw [hdq], hsc]
    by_cases hc : pS.flatten = []
    all_goals simp [hc, hdq]
  · rw [if_neg hdq]
    simp only [show ({ { st with displayQueue := [] } with partialBuffer := [] } :
        SentinelCapture) = { st with displayQueue := [], partialBuffer := [] } from rfl, hsc]
    by_cases hc : pS.flatten = []
    all_goals simp [hc, hdq]

theorem display_before_command_split {A B : List OutEvent}
    (hA : ∀ e ∈ A, isCommandEv e = false) (hB : ∀ e ∈ B, isDisplayEv e = false)
    {i j : Nat} (hi : ((A ++ B).get? i).map isCommandEv = some true)
    (hj : ((A ++ B).get? j).map isDisplayEv = some true) : j < i := by
  obtain ⟨ei, hei, hci⟩ : ∃ e, (A ++ B).get? i = some e ∧ isCommandEv e = true := by
    rcases hx : (A ++ B).get? i with _ | e
    · rw [hx] at hi
      simp at hi
    · rw [hx] at hi
      simp at hi
      exact ⟨e, rfl, hi⟩
  obtain ⟨ej, hej, hdj⟩ : ∃ e, (A ++ B).get? j = some e ∧ isDisplayEv e = true := by
    rcases hx : (A ++ B).get? j with _ | e
    · rw [hx] at hj
      simp at hj
    · rw [hx] at hj
      simp at hj
      exact ⟨e, rfl, hj⟩
  have hiA : A.length ≤ i := by
    by_contra hlt
    push_neg at hlt
    rw [List.get?_append hlt] at hei
    rw [hA ei (List.get?_mem hei)] at hci
    exact Bool.noConfusion hci
  have hjA : j < A.length := by
    by_contra hge
    push_neg at hge
    rw [List.get?_append_right hge] at hej
    rw [hB ej (List.get?_mem hej)] at hdj
    exact Bool.noConfusion hdj
  omega

theorem commandsOf_nil_of_no_command {l : List OutEvent}
    (h : ∀ e ∈ l, isCommandEv e = false) : commandsOf l = [] := by
  induction l with
  | nil => rfl
  | cons e l ih =>
    rcases e with t | r | _
    · simpa [commandsOf] using ih (fun e he => h e (List.mem_cons_of_mem _ he))
    · have := h (OutEvent.command r) (List.mem_cons_self _ _)
      simp [isCommandEv] at this
    · simpa [commandsOf] using ih (fun e he => h e (List.mem_cons_of_mem _ he))

theorem pushSegment_mute (st : SentinelCapture) (seg : List Char) :
    (pushSegment st seg).1.muteSerial = st.muteSerial := by
  unfold pushSegment
  by_cases h : seg = [] <;> by_cases hc : st.capturing <;> by_cases hm : st.muteSerial <;>
    simp [h, hc, hm]

theorem pushSegment_flatten_unmuted (st : SentinelCapture) (seg : List Char)
    (hm : st.muteSerial = false) : ((pushSegment st seg).2).flatten = seg := by
  unfold pushSegment
  by_cases h : seg = [] <;> by_cases hc : st.capturing <;> simp [h, hc, hm]

theorem handleSentinel_mute_false (st : SentinelCapture) (body : List Char)
    (hm : st.muteSerial = false) : (handleSentinel st body).1.muteSerial = false := by
  unfold handleSentinel finishCapture flushPendingMessages
  by_cases h1 : body = CMD_START_SENTINEL <;>
    by_cases h2 : (CMD_END_SENTINEL ++ [':']).isPrefixOf body <;>
    simp [h1, h2, hm] <;> split <;> simp_all <;> split <;> simp_all <;> split <;> simp_all

theorem handleSentinel_result_shape (st : SentinelCapture) (body : List Char)
    (r : CommandResult) (h : (handleSentinel st body).2.2 = some r) :
    r.stderr = [] ∧ r.command = [] := by
  unfold handleSentinel finishCapture flushPendingMessages at h
  by_cases h1 : body = CMD_START_SENTINEL
  · simp [h1] at h
  · by_cases h2 : (CMD_END_SENTINEL ++ [':']).isPrefixOf body
    · simp only [h1, h2, ite_true, ite_false, if_neg, if_pos] at h
      split at h
      · split at h <;> simp_all
      · simp only [Option.some.injEq] at h
        rw [← h]
        exact ⟨rfl, rfl⟩
    · simp [h1, h2] at h

theorem findSentinel_drop_none : ∀ (x : List Char) {u : List Char},
    findSentinel (x ++ u) = none → findSentinel u = none := by
  intro x
  induction x with
  | nil => intro u h; simpa using h
  | cons c x ih =>
    intro u h
    rw [List.cons_append] at h
    refine ih ?_
    rcases hm : matchSentinelAt (c :: (x ++ u)) with _ | ⟨⟨body, rest⟩⟩ <;>
      rcases hf : findSentinel (x ++ u) with _ | ⟨⟨pre, body', rest'⟩⟩ <;>
      simp only [findSentinel, hm, hf] at h <;> first | rfl | exact absurd h (by simp)

theorem scanLoopF_display : ∀ (fuel : Nat) (st : SentinelCapture) (data : List Char),
    data.length ≤ fuel → st.muteSerial = false → st.partialBuffer = [] →
    ((scanLoopF fuel st data).2.2.1).flatten ++ (scanLoopF fuel st data).1.partialBuffer
      = removeSentinelsF fuel data ∧
    (scanLoopF fuel st data).1.muteSerial = false := by
  intro fuel
  induction fuel with
  | zero =>
    intro st data hl hm hpb
    have hd : data = [] := List.length_eq_zero.mp (Nat.le_zero.mp hl)
    subst hd
    simp [scanLoopF, handleTail, removeSentinelsF, hm, hpb]
  | succ n ih =>
    intro st data hl hm hpb
    rcases hf : findSentinel data with _ | ⟨⟨pre, body, rest⟩⟩
    · simp only [scanLoopF, hf, removeSentinelsF]
      unfold handleTail
      by_cases hd : data = []
      · simp [hd, hm, hpb]
      · by_cases hu : data.dropWhile notUS = []
        · rcases hps : pushSegment st data with ⟨stA, partsA⟩
          have hfl := pushSegment_flatten_unmuted st data hm
          have hpbA := pushSegment_partialBuffer st data
          have hmA := pushSegment_mute st data
          rw [hps] at hfl hpbA hmA
          simp only at hfl hpbA hmA
          simp only [hd, hu, ite_false, ite_true, if_neg, if_pos, hps]
          simp [hfl, hpbA, hmA, hpb, hm]
        · rcases hps : pushSegment st (data.takeWhile notUS) with ⟨stA, partsA⟩
          have hfl := pushSegment_flatten_unmuted st (data.takeWhile notUS) hm
          have hmA := pushSegment_mute st (data.takeWhile notUS)
          rw [hps] at hfl hmA
          simp only at hfl hmA
          simp only [hd, hu, ite_false, ite_true, if_neg, if_pos, hps]
          simp [hfl, hmA, hm, List.takeWhile_append_dropWhile]
    · have hlt := findSentinel_rest_length hf
      rcases hps : pushSegment st pre with ⟨stA, partsA⟩
      rcases hhs : handleSentinel stA body with ⟨stB, evsB, resB⟩
      have hfl := pushSegment_flatten_unmuted st pre hm
      have hmA := pushSegment_mute st pre
      have hpbA := pushSegment_partialBuffer st pre
      rw [hps] at hfl hmA hpbA
      simp only at hfl hmA hpbA
      have hmA' : stA.muteSerial = false := by rw [hmA, hm]
      have hmB : stB.muteSerial = false := by
        have := handleSentinel_mute_false stA body hmA'
        rw [hhs] at this
        exact this
      have hpbB : stB.partialBuffer = [] := by
        have := handleSentinel_partialBuffer stA body
        rw [hhs] at this
        simp only at this
        rw [this, hpbA, hpb]
      obtain ⟨i1, i2⟩ := ih stB rest (by omega) hmB hpbB
      simp only [scanLoopF, hf, hps, hhs, removeSentinelsF]
      refine ⟨?_, i2⟩
      rw [List.flatten_append, hfl, List.append_assoc, i1]

theorem scanLoopF_partial_none : ∀ (fuel : Nat) (st : SentinelCapture) (data : List Char),
    data.length ≤ fuel → st.partialBuffer = [] →
    findSentinel (scanLoopF fuel st data).1.partialBuffer = none := by
  intro fuel
  induction fuel with
  | zero =>
    intro st data hl hpb
    have hd : data = [] := List.length_eq_zero.mp (Nat.le_zero.mp hl)
    subst hd
    simp [scanLoopF, handleTail, hpb, findSentinel]
  | succ n ih =>
    intro st data hl hpb
    rcases hf : findSentinel data with _ | ⟨⟨pre, body, rest⟩⟩
    · simp only [scanLoopF, hf]
      unfold handleTail
      by_cases hd : data = []
      · simp [hd, hpb, findSentinel]
      · by_cases hu : data.dropWhile notUS = []
        · rcases hps : pushSegment st data with ⟨stA, partsA⟩
          have hpbA := pushSegment_partialBuffer st data
          rw [hps] at hpbA
          simp only at hpbA
          simp only [hd, hu, ite_false, ite_true, if_neg, if_pos, hps]
          rw [hpbA, hpb]
          rfl
        · simp only [hd, hu, ite_false, ite_true, if_neg, if_pos]
          have hsplit : data.takeWhile notUS ++ data.dropWhile notUS = data :=
            List.takeWhile_append_dropWhile notUS data
          have : findSentinel (data.takeWhile notUS ++ data.dropWhile notUS) = none := by
            rw [hsplit]; exact hf
          exact findSentinel_drop_none _ this
    · have hlt := findSentinel_rest_length hf
      rcases hps : pushSegment st pre with ⟨stA, partsA⟩
      rcases hhs : handleSentinel stA body with ⟨stB, evsB, resB⟩
      have hpbA := pushSegment_partialBuffer st pre
      rw [hps] at hpbA
      simp only at hpbA
      have hpbB : stB.partialBuffer = [] := by
        have := handleSentinel_partialBuffer stA body
        rw [hhs] at this
        simp only at this
        rw [this, hpbA, hpb]
      simp only [scanLoopF, hf, hps, hhs]
      exact ih stB rest (by omega) hpbB

theorem pushSegment_mute_on (st : SentinelCapture) (seg : List Char) :
    (pushSegment { st with muteSerial := true } seg).1
      = { (pushSegment st seg).1 with muteSerial := true } ∧
    (pushSegment { st with muteSerial := true } seg).2 = [] := by
  unfold pushSegment
  by_cases h : seg = [] <;> by_cases hc : st.capturing <;> by_cases hm : st.muteSerial <;>
    simp [h, hc, hm]

theorem finishCapture_mute (st : SentinelCapture) (ec : Int) :
    (finishCapture { st with muteSerial := true } ec).1
      = { (finishCapture st ec).1 with muteSerial := true } ∧
    (finishCapture { st with muteSerial := true } ec).2.1 = (finishCapture st ec).2.1 ∧
    (finishCapture { st with muteSerial := true } ec).2.2 = (finishCapture st ec).2.2 := by
  unfold finishCapture flushPendingMessages
  by_cases h1 : st.skipCaptures > 0 <;> by_cases h2 : st.ready <;>
    by_cases h3 : st.pendingMessages = [] <;> simp [h1, h2, h3]

theorem handleSentinel_mute (st : SentinelCapture) (body : List Char)
    (hb : body ≠ CMD_START_SENTINEL) :
    (handleSentinel { st with muteSerial := true } body).1
      = { (handleSentinel st body).1 with muteSerial := true } ∧
    (handleSentinel { st with muteSerial := true } body).2.1 = (handleSentinel st body).2.1 ∧
    (handleSentinel { st with muteSerial := true } body).2.2 = (handleSentinel st body).2.2 := by
  unfold handleSentinel
  by_cases h2 : (CMD_END_SENTINEL ++ [':']).isPrefixOf body
  · simp only [hb, h2, ite_true, ite_false, if_neg, if_pos]
    have hfc := finishCapture_mute
      { st with cwd := if 2 < (jsSplitCharLimit body ':' 3).length
          then (jsSplitCharLimit body ':' 3).getD 2 [] else st.cwd }
      (if 1 < (jsSplitCharLimit body ':' 3).length
          then (jsParseInt ((jsSplitCharLimit body ':' 3).getD 1 [])).getD 0 else 0)
    exact ⟨hfc.1, hfc.2.1, hfc.2.2⟩
  · simp [hb, h2]

theorem handleTail_mute (st : SentinelCapture) (tail : List Char) :
    (handleTail { st with muteSerial := true } tail).1
      = { (handleTail st tail).1 with muteSerial := true } ∧
    (handleTail { st with muteSerial := true } tail).2.1 = (handleTail st tail).2.1 ∧
    (handleTail { st with muteSerial := true } tail).2.2.1 = [] ∧
    (handleTail { st with muteSerial := true } tail).2.2.2 = (handleTail st tail).2.2.2 := by
  unfold handleTail
  by_cases h : tail = []
  · simp [h]
  · by_cases hu : tail.dropWhile notUS = []
    · rcases hp : pushSegment st tail with ⟨stA, pA⟩
      rcases hp' : pushSegment { st with muteSerial := true } tail with ⟨stB, pB⟩
      obtain ⟨m1, m2⟩ := pushSegment_mute_on st tail
      rw [hp, hp'] at m1
      rw [hp'] at m2
      simp only at m1 m2
      simp [h, hu, hp, hp', m1, m2]
    · rcases hp : pushSegment st (tail.takeWhile notUS) with ⟨stA, pA⟩
      rcases hp' : pushSegment { st with muteSerial := true } (tail.takeWhile notUS)
        with ⟨stB, pB⟩
      obtain ⟨m1, m2⟩ := pushSegment_mute_on st (tail.takeWhile notUS)
      rw [hp, hp'] at m1
      rw [hp'] at m2
      simp only at m1 m2
      simp [h, hu, hp, hp', m1, m2]

theorem scanLoopF_mute : ∀ (fuel : Nat) (st : SentinelCapture) (data : List Char),
    (scanLoopF fuel { st with muteSerial := true } data).1
      = { (scanLoopF fuel st data).1 with
          muteSerial :=
            if hasStartF fuel data then (scanLoopF fuel st data).1.muteSerial else true } ∧
    (scanLoopF fuel { st with muteSerial := true } data).2.1
      = (scanLoopF fuel st data).2.1 ∧
    (scanLoopF fuel { st with muteSerial := true } data).2.2.2
      = (scanLoopF fuel st data).2.2.2 ∧
    (hasStartF fuel data = false →
      (scanLoopF fuel { st with muteSerial := true } data).2.2.1 = []) := by
  intro fuel
  induction fuel with
  | zero =>
    intro st data
    have h := handleTail_mute st data
    simp only [scanLoopF, hasStartF, if_neg, Bool.false_eq_true, ite_false]
    exact ⟨h.1, h.2.1, h.2.2.2, fun _ => h.2.2.1⟩
  | succ n ih =>
    intro st data
    rcases hf : findSentinel data with _ | ⟨⟨pre, body, rest⟩⟩
    · have h := handleTail_mute st data
      simp only [scanLoopF, hasStartF, hf, if_neg, Bool.false_eq_true, ite_false]
      exact ⟨h.1, h.2.1, h.2.2.2, fun _ => h.2.2.1⟩
    · rcases hpA : pushSegment st pre with ⟨stA, pA⟩
      rcases hpB : pushSegment { st with muteSerial := true } pre with ⟨stB, pB⟩
      obtain ⟨m1, m2⟩ := pushSegment_mute_on st pre
      rw [hpA, hpB] at m1
      rw [hpB] at m2
      simp only at m1 m2
      by_cases hbody : body = CMD_START_SENTINEL
      · subst hbody
        have hsame : handleSentinel stB CMD_START_SENTINEL
            = handleSentinel stA CMD_START_SENTINEL := by
          rw [m1]
          unfold handleSentinel
          simp
        simp only [scanLoopF, hasStartF, hf, hpA, hpB, hsame, m2, List.nil_append]
        refine ⟨?_, trivial, trivial, ?_⟩
        · simp
        · intro hfalse
          simp at hfalse
      · have hm := handleSentinel_mute stA body hbody
        rw [m1] at hpB
        rcases hhs : handleSentinel stA body with ⟨stC, evsC, resC⟩
        rcases hhs' : handleSentinel { stA with muteSerial := true } body
          with ⟨stD, evsD, resD⟩
        rw [hhs, hhs'] at hm
        simp only at hm
        obtain ⟨hm1, hm2, hm3⟩ := hm
        obtain ⟨i1, i2, i3, i4⟩ := ih stC rest
        have hstart : hasStartF (n + 1) data = hasStartF n rest := by
          simp [hasStartF, hf, hbody]
        simp only [scanLoopF, hf, hpA, hpB, hhs, hhs', hstart]
        rw [hm1] at *
        refine ⟨?_, ?_, ?_, ?_⟩
        · exact i1
        · rw [hm2, i2]
        · rw [hm3, i3]
        · intro h0
          rw [m2, i4 h0]
          simp

theorem removeSentinels_decomp (st : SentinelCapture) (x y : List Char)
    (hm : st.muteSerial = false) (hpb : st.partialBuffer = []) :
    removeSentinels (x ++ y)
      = ((scanLoop st x).2.2.1).flatten
        ++ removeSentinels ((scanLoop st x).1.partialBuffer ++ y) := by
  rcases h1 : scanLoop st x with ⟨s1, e1, p1, r1⟩
  rcases h2 : scanLoop { s1 with partialBuffer := [] } (s1.partialBuffer ++ y)
    with ⟨s2, e2, p2, r2⟩
  rcases h3 : scanLoop st (x ++ y) with ⟨s3, e3, p3, r3⟩
  have hstream := scanFlat_append x.length st x y (le_refl _) hpb
  simp only [scanOneFlat, scanTwo, h1, h2, h3, Prod.mk.injEq] at hstream
  obtain ⟨hs, he, hpp, hr⟩ := hstream
  have hd3 := scanLoopF_display (x ++ y).length st (x ++ y) (le_refl _) hm hpb
  rw [show scanLoopF (x ++ y).length st (x ++ y) = scanLoop st (x ++ y) from rfl, h3] at hd3
  have hd1 := scanLoopF_display x.length st x (le_refl _) hm hpb
  rw [show scanLoopF x.length st x = scanLoop st x from rfl, h1] at hd1
  simp only at hd1 hd3
  have hm1 : s1.muteSerial = false := hd1.2
  have hd2 := scanLoopF_display (s1.partialBuffer ++ y).length
    { s1 with partialBuffer := [] } (s1.partialBuffer ++ y) (le_refl _) hm1 rfl
  rw [show scanLoopF (s1.partialBuffer ++ y).length { s1 with partialBuffer := [] }
        (s1.partialBuffer ++ y)
      = scanLoop { s1 with partialBuffer := [] } (s1.partialBuffer ++ y) from rfl, h2] at hd2
  simp only at hd2
  show removeSentinels (x ++ y) = p1.flatten ++ removeSentinels (s1.partialBuffer ++ y)
  have e3eq : removeSentinels (x ++ y) = p3.flatten ++ s3.partialBuffer := hd3.1.symm
  rw [e3eq, hpp, hs, List.append_assoc]
  have e2eq : p2.flatten ++ s2.partialBuffer = removeSentinels (s1.partialBuffer ++ y) :=
    hd2.1
  rw [e2eq]

theorem runAll_display : ∀ (chunks : List (List Char)) (st : SentinelCapture),
    st.displayQueue = [] → st.pendingMessages = [] → st.muteSerial = false →
    findSentinel st.partialBuffer = none →
    displayedText (runAll st chunks).2
      = removeSentinels (st.partialBuffer ++ chunks.flatten) := by
  intro chunks
  induction chunks with
  | nil =>
    intro st hdq hp hm hpnone
    unfold runAll
    simp only [runChunks, List.flatten_nil, List.append_nil]
    unfold partialTimerFire
    by_cases hb : st.partialBuffer = []
    · simp [hb, displayedText, removeSentinels, removeSentinelsF]
    · have hrs : removeSentinels st.partialBuffer = st.partialBuffer :=
        removeSentinels_none hpnone
      by_cases hc : st.capturing <;> simp [hb, hc, hm, displayedText, hrs]
  | cons c cs ih =>
    intro st hdq hp hm hpnone
    obtain ⟨hS, hD, hC⟩ := processOutput_spec st c
    rcases h1 : scanLoop { st with displayQueue := [], partialBuffer := [] }
      (st.partialBuffer ++ c) with ⟨s1, e1, p1, r1⟩
    have hinv := scanLoopF_inv (st.partialBuffer ++ c).length
      { st with displayQueue := [], partialBuffer := [] } (st.partialBuffer ++ c)
      (le_refl _) hp
    rw [show scanLoopF (st.partialBuffer ++ c).length
          { st with displayQueue := [], partialBuffer := [] } (st.partialBuffer ++ c)
        = scanLoop { st with displayQueue := [], partialBuffer := [] }
          (st.partialBuffer ++ c) from rfl, h1] at hinv
    have hdsp := scanLoopF_display (st.partialBuffer ++ c).length
      { st with displayQueue := [], partialBuffer := [] } (st.partialBuffer ++ c)
      (le_refl _) hm rfl
    rw [show scanLoopF (st.partialBuffer ++ c).length
          { st with displayQueue := [], partialBuffer := [] } (st.partialBuffer ++ c)
        = scanLoop { st with displayQueue := [], partialBuffer := [] }
          (st.partialBuffer ++ c) from rfl, h1] at hdsp
    have hpn := scanLoopF_partial_none (st.partialBuffer ++ c).length
      { st with displayQueue := [], partialBuffer := [] } (st.partialBuffer ++ c)
      (le_refl _) rfl
    rw [show scanLoopF (st.partialBuffer ++ c).length
          { st with displayQueue := [], partialBuffer := [] } (st.partialBuffer ++ c)
        = scanLoop { st with displayQueue := [], partialBuffer := [] }
          (st.partialBuffer ++ c) from rfl, h1] at hpn
    simp only at hinv hdsp hpn
    have hp1 : s1.pendingMessages = [] := hinv.1
    have hq1 : s1.displayQueue = [] := by simpa using hinv.2.1
    have hde1 : displayedText e1 = [] := hinv.2.2.1
    have hm1 : s1.muteSerial = false := hdsp.2
    have hpo1 : (processOutput st c).1 = s1 := by rw [hS, h1]
    have hrun : (runAll st (c :: cs)).2
        = (processOutput st c).2 ++ (runAll (processOutput st c).1 cs).2 := by
      unfold runAll
      rcases hpc : processOutput st c with ⟨stX, evsX⟩
      simp only [runChunks, hpc]
      rcases hrc : runChunks stX cs with ⟨stY, evsY⟩
      simp only
      rcases hpt : partialTimerFire stY with ⟨stZ, evsZ⟩
      simp [List.append_assoc]
    rw [hrun, displayedText_append, hpo1]
    rw [ih s1 hq1 hp1 hm1 hpn]
    have hDis : displayedText (processOutput st c).2 = p1.flatten := by
      rw [hD, h1]
      simp [hdq, hde1]
    rw [hDis]
    have hdec := removeSentinels_decomp { st with displayQueue := [], partialBuffer := [] }
      (st.partialBuffer ++ c) cs.flatten hm rfl
    rw [h1] at hdec
    simp only at hdec
    rw [show st.partialBuffer ++ (c :: cs).flatten
        = (st.partialBuffer ++ c) ++ cs.flatten by simp [List.flatten_cons], hdec]

theorem dropWhile_head_false_of {α : Type} (p : α → Bool) {l x : List α} {c : α}
    (h : l.dropWhile p = c :: x) : p c = false := by
  induction l with
  | nil => simp at h
  | cons a l ih =>
    cases hpa : p a with
    | true => exact ih (by simpa [List.dropWhile_cons, hpa] using h)
    | false =>
      have hac : a = c ∧ l = x := by simpa [List.dropWhile_cons, hpa] using h
      rw [← hac.1]
      exact hpa

theorem levelScanAux_takeWhile (xp : ℚ) : ∀ (tbl : List (ℚ × String)) (i level : Nat),
    levelScanAux xp tbl i level
      = if (tbl.takeWhile fun e => decide (xp ≥ e.1)).length = 0 then level
        else i + (tbl.takeWhile fun e => decide (xp ≥ e.1)).length - 1 := by
  intro tbl
  induction tbl with
  | nil =>
    intro i level
    simp [levelScanAux]
  | cons e rest ih =>
    intro i level
    by_cases h : xp ≥ e.1
    · have hstep : levelScanAux xp (e :: rest) i level = levelScanAux xp rest (i + 1) i := by
        simp [levelScanAux, h]
      rw [hstep, ih]
      have hd : (decide (xp ≥ e.1)) = true := decide_eq_true h
      simp only [List.takeWhile_cons, hd, ite_true, List.length_cons]
      by_cases hL : (rest.takeWhile fun e => decide (xp ≥ e.1)).length = 0
      · simp [hL]
      · have h1 : ¬ ((rest.takeWhile fun e => decide (xp ≥ e.1)).length + 1 = 0) := by omega
        rw [if_neg hL, if_neg h1]
        omega
    · have hd : (decide (xp ≥ e.1)) = false := decide_eq_false h
      simp [levelScanAux, h, List.takeWhile_cons, hd]

theorem LEVEL_TABLE_mono : ∀ i, i < 17 → ∀ j, j < 17 → i ≤ j →
    (LEVEL_TABLE.getD i ((0 : ℚ), "")).1 ≤ (LEVEL_TABLE.getD j ((0 : ℚ), "")).1 := by
  decide

theorem LEVEL_TABLE_strict : ∀ i, i < 16 →
    (LEVEL_TABLE.getD i ((0 : ℚ), "")).1 < (LEVEL_TABLE.getD (i + 1) ((0 : ℚ), "")).1 := by
  decide

theorem getLevelInfo_level_char (xp : ℚ) (hxp : 0 ≤ xp) :
    ∃ L : Nat, 1 ≤ L ∧ L ≤ 17 ∧
      (getLevelInfo xp).level = L - 1 ∧
      (∀ j, j < L → (LEVEL_TABLE.getD j ((0 : ℚ), "")).1 ≤ xp) ∧
      (L < 17 → ¬ (LEVEL_TABLE.getD L ((0 : ℚ), "")).1 ≤ xp) := by
  refine ⟨(LEVEL_TABLE.takeWhile fun e => decide (xp ≥ e.1)).length, ?_, ?_, ?_, ?_, ?_⟩
  · have h0 : (decide (xp ≥ (((0 : ℚ), "Newbie") : ℚ × String).1)) = true := by
      simp [ge_iff_le, hxp]
    rw [show LEVEL_TABLE = (((0 : ℚ), "Newbie") : ℚ × String) :: LEVEL_TABLE.tail from rfl,
      List.takeWhile_cons, h0]
    simp
  · have hpre : (LEVEL_TABLE.takeWhile fun e => decide (xp ≥ e.1)) <+: LEVEL_TABLE :=
      List.takeWhile_prefix _
    obtain ⟨t, ht⟩ := hpre
    have hlen := congrArg List.length ht
    simp only [List.length_append] at hlen
    have h17 : LEVEL_TABLE.length = 17 := rfl
    omega
  · have hlv : (getLevelInfo xp).level = levelScanAux xp LEVEL_TABLE 0 0 := rfl
    rw [hlv, levelScanAux_takeWhile]
    have h0 : (decide (xp ≥ (((0 : ℚ), "Newbie") : ℚ × String).1)) = true := by
      simp [ge_iff_le, hxp]
    have hpos : ¬ ((LEVEL_TABLE.takeWhile fun e => decide (xp ≥ e.1)).length = 0) := by
      rw [show LEVEL_TABLE = (((0 : ℚ), "Newbie") : ℚ × String) :: LEVEL_TABLE.tail from rfl,
        List.takeWhile_cons, h0]
      simp
    rw [if_neg hpos]
    omega
  · intro j hj
    have hpre : (LEVEL_TABLE.takeWhile fun e => decide (xp ≥ e.1)) <+: LEVEL_TABLE :=
      List.takeWhile_prefix _
    obtain ⟨t, ht⟩ := hpre
    have hg : LEVEL_TABLE.getD j ((0 : ℚ), "")
        = (LEVEL_TABLE.takeWhile fun e => decide (xp ≥ e.1)).getD j ((0 : ℚ), "") := by
      have hga := List.getD_append (LEVEL_TABLE.takeWhile fun e => decide (xp ≥ e.1)) t
        ((0 : ℚ), "") j hj
      rw [ht] at hga
      exact hga
    have hmem : (LEVEL_TABLE.takeWhile fun e => decide (xp ≥ e.1)).getD j ((0 : ℚ), "")
        ∈ (LEVEL_TABLE.takeWhile fun e => decide (xp ≥ e.1)) := by
      rw [List.getD_eq_getElem _ _ hj]
      exact List.getElem_mem hj
    have hp := List.mem_takeWhile_imp hmem
    rw [hg]
    exact of_decide_eq_true hp
  · intro hL17 hle
    have htw : (LEVEL_TABLE.takeWhile fun e => decide (xp ≥ e.1))
        ++ (LEVEL_TABLE.dropWhile fun e => decide (xp ≥ e.1)) = LEVEL_TABLE :=
      List.takeWhile_append_dropWhile _ _
    rcases hd : LEVEL_TABLE.dropWhile (fun e => decide (xp ≥ e.1)) with _ | ⟨c, x⟩
    · rw [hd, List.append_nil] at htw
      have h17 : (LEVEL_TABLE.takeWhile fun e => decide (xp ≥ e.1)).length = 17 := by
        rw [htw]
        rfl
      omega
    · have hp0 := dropWhile_head_false_of _ hd
      have hpc : (decide (xp ≥ c.1)) = false := hp0
      have hgd := List.getD_append_right
        (LEVEL_TABLE.takeWhile fun e => decide (xp ≥ e.1))
        (LEVEL_TABLE.dropWhile fun e => decide (xp ≥ e.1)) ((0 : ℚ), "")
        ((LEVEL_TABLE.takeWhile fun e => decide (xp ≥ e.1)).length) (le_refl _)
      rw [htw, hd] at hgd
      simp only [Nat.sub_self, List.getD_cons_zero] at hgd
      rw [hgd] at hle
      exact (of_decide_eq_false hpc) hle

theorem processOutput_trace_split (st : SentinelCapture) (d : List Char) :
    ∃ A B : List OutEvent, (processOutput st d).2 = A ++ B ∧
      (∀ e ∈ A, isCommandEv e = false) ∧ (∀ e ∈ B, isDisplayEv e = false) := by
  rcases hsc : scanLoop { st with displayQueue := [], partialBuffer := [] }
      (st.partialBuffer ++ d) with ⟨sS, eS, pS, rS⟩
  refine ⟨(if st.displayQueue = [] then []
            else [OutEvent.display st.displayQueue.flatten])
          ++ eS ++ (if pS.flatten = [] then [] else [OutEvent.display pS.flatten]),
        rS.map OutEvent.command, ?_, ?_, ?_⟩
  · have ht := processOutput_trace st d
    rw [hsc] at ht
    simp only at ht
    rw [ht]
  · intro e he
    rcases List.mem_append.mp he with he' | he'
    · rcases List.mem_append.mp he' with hF | hS
      · by_cases hq : st.displayQueue = []
        · simp [hq] at hF
        · simp [hq] at hF
          rw [hF]
          rfl
      · have hnc := scanLoopF_no_command (st.partialBuffer ++ d).length
          { st with displayQueue := [], partialBuffer := [] } (st.partialBuffer ++ d)
        rw [show scanLoopF (st.partialBuffer ++ d).length
              { st with displayQueue := [], partialBuffer := [] } (st.partialBuffer ++ d)
            = scanLoop { st with displayQueue := [], partialBuffer := [] }
              (st.partialBuffer ++ d) from rfl, hsc] at hnc
        exact hnc e hS
    · by_cases hq : pS.flatten = []
      · simp [hq] at he'
      · simp [hq] at he'
        rw [he']
        rfl
  · intro e he
    obtain ⟨r, _, rfl⟩ := List.mem_map.mp he
    rfl

/-- C1: within one `processOutput` call every display-callback invocation
happens before every command-callback invocation in the emitted callback
trace: a command event at trace index `i` and a display event at index `j`
force `j < i`.  In particular, one chunk holding output, `CMD_END`, prompt
bytes and `CMD_START` shows both display segments before the command event
fires. -/
theorem C1_display_before_command (st : SentinelCapture) (d : List Char) (i j : Nat)
    (hc : (((processOutput st d).2).get? i).map isCommandEv = some true)
    (hd : (((processOutput st d).2).get? j).map isDisplayEv = some true) :
    j < i := by
  obtain ⟨A, B, hAB, hA, hB⟩ := processOutput_trace_split st d
  rw [hAB] at hc hd
  exact display_before_command_split hA hB hc hd

theorem C1_display_before_command_witness :
    (((processOutput exampleState exampleChunk).2).get? 1).map isCommandEv = some true ∧
    (((processOutput exampleState exampleChunk).2).get? 0).map isDisplayEv = some true ∧
    0 < 1 :=
  ⟨by rfl, by rfl, C1_display_before_command exampleState exampleChunk 1 0 (by rfl) (by rfl)⟩

/-- C2: delivering a byte stream as two chunks split at any boundary — in
particular anywhere inside a sentinel — and letting the 50 ms partial
safety timer settle yields the same final parser state, the same
concatenated display text and the same command-result sequence as
delivering the bytes whole, from any state with no pre-ready system
messages pending. -/
theorem C2_split_sentinel_equivalence (st : SentinelCapture) (a b : List Char)
    (hpend : st.pendingMessages = []) :
    (runAll st [a ++ b]).1 = (runAll st [a, b]).1 ∧
    displayedText (runAll st [a ++ b]).2 = displayedText (runAll st [a, b]).2 ∧
    commandsOf (runAll st [a ++ b]).2 = commandsOf (runAll st [a, b]).2 := by
  obtain ⟨h1, h2, h3⟩ := processOutput_append st a b hpend
  rcases hpo1 : processOutput st a with ⟨s1, e1⟩
  rw [hpo1] at h1 h2 h3
  simp only at h1 h2 h3
  rcases hpo2 : processOutput s1 b with ⟨s2, e2⟩
  rcases hpo3 : processOutput st (a ++ b) with ⟨s3, e3⟩
  rw [hpo2, hpo3] at h1 h2 h3
  simp only at h1 h2 h3
  unfold runAll
  simp only [runChunks, hpo1, hpo2, hpo3]
  rw [h1]
  rcases hpt : partialTimerFire s2 with ⟨s4, e4⟩
  simp only [hpt]
  refine ⟨trivial, ?_, ?_⟩
  · simp [displayedText_append, h2]
  · simp [commandsOf_append, h3]

theorem C2_split_sentinel_equivalence_witness :
    (runAll exampleState [exampleSplitA ++ exampleSplitB]).1
      = (runAll exampleState [exampleSplitA, exampleSplitB]).1 ∧
    displayedText (runAll exampleState [exampleSplitA ++ exampleSplitB]).2
      = displayedText (runAll exampleState [exampleSplitA, exampleSplitB]).2 ∧
    commandsOf (runAll exampleState [exampleSplitA ++ exampleSplitB]).2
      = commandsOf (runAll exampleState [exampleSplitA, exampleSplitB]).2 :=
  C2_split_sentinel_equivalence exampleState exampleSplitA exampleSplitB rfl

/-- C3: over any sequence of serial chunks fed to `processOutput` (from a
state with empty display queue, no pending system messages, muting off and
an empty partial buffer — the freshly constructed parser is such a state),
once the 50 ms safety timer settles, the concatenation of all strings
delivered to the display callback equals the concatenation of the input
bytes minus exactly the bytes lying inside a sentinel match. -/
theorem C3_display_text_characterization (st : SentinelCapture)
    (chunks : List (List Char)) (hdq : st.displayQueue = [])
    (hpend : st.pendingMessages = []) (hmute : st.muteSerial = false)
    (hpb : st.partialBuffer = []) :
    displayedText (runAll st chunks).2 = removeSentinels chunks.flatten := by
  have h := runAll_display chunks st hdq hpend hmute (by rw [hpb]; rfl)
  rw [hpb, List.nil_append] at h
  exact h

theorem C3_display_text_characterization_witness :
    displayedText (runAll SentinelCapture.init [exampleSplitA, exampleSplitB]).2
      = removeSentinels ([exampleSplitA, exampleSplitB]).flatten :=
  C3_display_text_characterization SentinelCapture.init [exampleSplitA, exampleSplitB]
    rfl rfl rfl rfl

/-- C4: `handleCommand(result)` short-circuits exactly as the spec's
five-guard chain: `validating`, then no current lesson, then index past
the last exercise, then exercise already completed, then the bare-Enter
suppression (output-kind validation AND empty trimmed stdout AND return
code 0, leaving `attempts` unchanged); filesystem-kind validations always
proceed (and bump `attempts`). -/
theorem C4_handleCommand_guard_order (app : AppState) (result : CommandResult) :
    handleCommandGuard app result = handleCommandGuardSpec app result := by
  unfold handleCommandGuard handleCommandGuardSpec
  by_cases h1 : app.validating = true
  · rw [if_pos h1, if_pos h1]
  · rw [if_neg h1, if_neg h1]
    rcases app.currentLesson with _ | exercises
    · rfl
    · dsimp only
      by_cases h2 : exercises.length ≤ app.currentExercise
      · rw [dif_pos h2, dif_pos h2]
      · rw [dif_neg h2, dif_neg h2]
        by_cases h3 : (exercises.get ⟨app.currentExercise, by omega⟩).completed = true
        · rw [if_pos h3, if_pos h3]
        · rw [if_neg h3, if_neg h3]
          by_cases h4 : jsTrim result.stdout = [] ∧ result.returncode = 0
          · by_cases h5 : isOutputKind
                (exercises.get ⟨app.currentExercise, by omega⟩).validation_type = true
            · rw [if_pos h4, if_pos h5, if_pos ⟨h5, h4⟩]
            · rw [if_pos h4, if_neg h5, if_neg (fun hx => h5 hx.1)]
          · rw [if_neg h4, if_neg (fun hx => h4 hx.2)]

/-- C5: the validator's error paths cannot throw: an invalid regular
expression for `output_regex` or `cwd_regex` (modelled by the regex oracle
returning `none`, i.e. `new RegExp` raising `SyntaxError`), a missing `::`
separator for `file_contains`, and an unparseable integer for `exit_code`
each yield `passed = false` with one of the validator's explanatory
messages; `validate` is a total function. -/
theorem C5_validator_error_paths (regex : RegExpOracle) (vm : LinuxVM)
    (exercise : Exercise) (result : CommandResult)
    (h : (exercise.validation_type = "output_regex"
            ∧ regex.compile exercise.expected = none)
       ∨ (exercise.validation_type = "cwd_regex"
            ∧ regex.compile exercise.expected = none)
       ∨ (exercise.validation_type = "file_contains"
            ∧ jsIncludes exercise.expected "::".data = false)
       ∨ (exercise.validation_type = "exit_code"
            ∧ jsParseInt (jsTrim exercise.expected) = none)) :
    (OutputValidator.validate regex vm exercise result).passed = false ∧
    (OutputValidator.validate regex vm exercise result).message ∈
      ["Invalid regex pattern.", "Cannot determine current directory.",
       "Invalid file_contains spec.", "Invalid expected exit code."] := by
  rcases h with ⟨hv, hc⟩ | ⟨hv, hc⟩ | ⟨hv, hc⟩ | ⟨hv, hc⟩
  · simp [OutputValidator.validate, hv, OutputValidator.checkOutputRegex, hc,
      OutputValidator.fail]
  · by_cases hcwd : result.cwd = [] <;>
      simp [OutputValidator.validate, hv, OutputValidator.checkCwdRegex, hc, hcwd,
        OutputValidator.fail]
  · simp [OutputValidator.validate, hv, OutputValidator.checkFileContains, hc,
      OutputValidator.fail]
  · simp [OutputValidator.validate, hv, OutputValidator.checkExitCode, hc,
      OutputValidator.fail]

theorem C5_validator_error_paths_witness :
    (exampleExercise.validation_type = "exit_code"
      ∧ jsParseInt (jsTrim exampleExercise.expected) = none) ∧
    (OutputValidator.validate exampleRegex exampleVM exampleExercise
        (createCommandResult [] 0 "/home/student".data)).passed = false ∧
    (OutputValidator.validate exampleRegex exampleVM exampleExercise
        (createCommandResult [] 0 "/home/student".data)).message ∈
      ["Invalid regex pattern.", "Cannot determine current directory.",
       "Invalid file_contains spec.", "Invalid expected exit code."] :=
  ⟨⟨rfl, by decide⟩,
   C5_validator_error_paths exampleRegex exampleVM exampleExercise
     (createCommandResult [] 0 "/home/student".data)
     (Or.inr (Or.inr (Or.inr ⟨rfl, by decide⟩)))⟩

/-- C6: `calculateXp` is exactly floor(base × multiplier) for the spec's
multiplier — start at 1.00, add 0.10 × (difficulty − 1), add 0.50 on a
first try, subtract the hint penalty 0/0.10/0.30/0.50 (three or more hints
count as three), floored at 0.25 — and the default example (base 20,
difficulty 1, first try, no hints) gives multiplier 1.50 and XP 30. -/
theorem C6_calculateXp_formula (baseXp difficulty : ℚ) (firstTry : Bool) (hintsUsed : Nat) :
    calculateXp baseXp difficulty firstTry hintsUsed
      = ⌊baseXp * specMultiplier difficulty firstTry hintsUsed⌋ ∧
    specMultiplier 1 true 0 = 3/2 ∧
    calculateXp 20 1 true 0 = 30 := by
  refine ⟨?_, by norm_num [specMultiplier], ?_⟩
  · have hpen : (HINT_PENALTIES (min hintsUsed 3)).getD (1/2)
        = (if hintsUsed = 0 then (0 : ℚ) else if hintsUsed = 1 then 1/10
           else if hintsUsed = 2 then 3/10 else 1/2) := by
      rcases hintsUsed with _ | _ | _ | h
      · norm_num [HINT_PENALTIES, Nat.min_def]
      · norm_num [HINT_PENALTIES, Nat.min_def]
      · norm_num [HINT_PENALTIES, Nat.min_def]
      · have hmin : min (h + 3) 3 = 3 := by omega
        rw [hmin]
        simp [HINT_PENALTIES, show ¬ (h + 3 = 0) by omega, show ¬ (h + 3 = 1) by omega,
          show ¬ (h + 3 = 2) by omega]
    simp only [calculateXp, specMultiplier, hpen]
    cases firstTry
    · rw [if_neg Bool.false_ne_true, if_neg Bool.false_ne_true]
      congr 2
      congr 1
      ring
    · rw [if_pos rfl, if_pos rfl]
      congr 2
      congr 1
      ring
  · norm_num [calculateXp, HINT_PENALTIES, max_def]

/-- C7: `getLevelInfo` over the fixed 17-entry table from `(0, "Newbie")`
to `(6500, "BDFL")` returns the greatest index whose threshold is at most
the (non-negative) total XP, with that entry's title and threshold as
floor; the ceiling is the next threshold (or the floor itself at the top),
and `levelProgress` is `(totalXp − floor) / (ceiling − floor)`, degenerate
to 1.0 at the top level. -/
theorem C7_level_info (xp : ℚ) (hxp : 0 ≤ xp) :
    LEVEL_TABLE.length = 17 ∧
    LEVEL_TABLE.getD 0 ((0 : ℚ), "") = ((0 : ℚ), "Newbie") ∧
    LEVEL_TABLE.getD 16 ((0 : ℚ), "") = ((6500 : ℚ), "BDFL") ∧
    (getLevelInfo xp).level < 17 ∧
    (getLevelInfo xp).title = (LEVEL_TABLE.getD (getLevelInfo xp).level ((0 : ℚ), "")).2 ∧
    (getLevelInfo xp).level_floor
      = (LEVEL_TABLE.getD (getLevelInfo xp).level ((0 : ℚ), "")).1 ∧
    (getLevelInfo xp).level_floor ≤ xp ∧
    (∀ j, j < 17 → (LEVEL_TABLE.getD j ((0 : ℚ), "")).1 ≤ xp
      → j ≤ (getLevelInfo xp).level) ∧
    (getLevelInfo xp).current_xp = xp ∧
    (getLevelInfo xp).level_ceiling
      = (if (getLevelInfo xp).level + 1 < 17
         then (LEVEL_TABLE.getD ((getLevelInfo xp).level + 1) ((0 : ℚ), "")).1
         else (getLevelInfo xp).level_floor) ∧
    levelProgress (getLevelInfo xp)
      = (if (getLevelInfo xp).level = 16 then 1
         else (xp - (getLevelInfo xp).level_floor)
              / ((getLevelInfo xp).level_ceiling - (getLevelInfo xp).level_floor)) := by
  obtain ⟨L, hL1, hL17, hlv, hsat, hfail⟩ := getLevelInfo_level_char xp hxp
  have hlt : (getLevelInfo xp).level < 17 := by omega
  have hlt' : (getLevelInfo xp).level < LEVEL_TABLE.length := hlt
  have hgd : LEVEL_TABLE.getD (getLevelInfo xp).level ((0 : ℚ), "Newbie")
      = LEVEL_TABLE.getD (getLevelInfo xp).level ((0 : ℚ), "") := by
    rw [List.getD_eq_getElem _ _ hlt', List.getD_eq_getElem _ _ hlt']
  have htitle : (getLevelInfo xp).title
      = (LEVEL_TABLE.getD (getLevelInfo xp).level ((0 : ℚ), "")).2 := by
    rw [show (getLevelInfo xp).title
        = (LEVEL_TABLE.getD (getLevelInfo xp).level ((0 : ℚ), "Newbie")).2 from rfl, hgd]
  have hfloor : (getLevelInfo xp).level_floor
      = (LEVEL_TABLE.getD (getLevelInfo xp).level ((0 : ℚ), "")).1 := by
    rw [show (getLevelInfo xp).level_floor
        = (LEVEL_TABLE.getD (getLevelInfo xp).level ((0 : ℚ), "Newbie")).1 from rfl, hgd]
  have hceq : (getLevelInfo xp).level_ceiling
      = (if (getLevelInfo xp).level + 1 < 17
         then (LEVEL_TABLE.getD ((getLevelInfo xp).level + 1) ((0 : ℚ), "")).1
         else (getLevelInfo xp).level_floor) := by
    rfl
  have hfle : (getLevelInfo xp).level_floor ≤ xp := by
    rw [hfloor, hlv]
    exact hsat (L - 1) (by omega)
  have hgreatest : ∀ j, j < 17 → (LEVEL_TABLE.getD j ((0 : ℚ), "")).1 ≤ xp
      → j ≤ (getLevelInfo xp).level := by
    intro j hj hle
    by_contra hgt
    push_neg at hgt
    have hLj : L ≤ j := by omega
    have hL17' : L < 17 := by omega
    have hmono := LEVEL_TABLE_mono L (by omega) j hj hLj
    exact hfail hL17' (le_trans hmono hle)
  refine ⟨rfl, rfl, by decide, hlt, htitle, hfloor, hfle, hgreatest, rfl, hceq, ?_⟩
  by_cases h16 : (getLevelInfo xp).level = 16
  · rw [if_pos h16]
    have hcf : (getLevelInfo xp).level_ceiling = (getLevelInfo xp).level_floor := by
      rw [hceq, h16]
      simp
    have hzero : xpForLevel (getLevelInfo xp) = 0 := by
      unfold xpForLevel
      rw [hcf]
      ring
    unfold levelProgress
    rw [if_pos hzero]
  · rw [if_neg h16]
    have hlt16 : (getLevelInfo xp).level < 16 := by omega
    have hceil2 : (getLevelInfo xp).level_ceiling
        = (LEVEL_TABLE.getD ((getLevelInfo xp).level + 1) ((0 : ℚ), "")).1 := by
      rw [hceq, if_pos (by omega)]
    have hstrict := LEVEL_TABLE_strict (getLevelInfo xp).level hlt16
    have hne : xpForLevel (getLevelInfo xp) ≠ 0 := by
      unfold xpForLevel
      rw [hceil2, hfloor]
      intro hz
      have := sub_eq_zero.mp hz
      exact absurd this (ne_of_gt hstrict)
    unfold levelProgress
    rw [if_neg hne]
    unfold xpInLevel xpForLevel
    rfl

theorem C7_level_info_witness :
    (0 : ℚ) ≤ 160 ∧
    ((getLevelInfo 160).level < 17 ∧
     (getLevelInfo 160).level_floor ≤ 160 ∧
     (∀ j, j < 17 → (LEVEL_TABLE.getD j ((0 : ℚ), "")).1 ≤ 160
        → j ≤ (getLevelInfo 160).level)) :=
  ⟨by norm_num,
   ⟨(C7_level_info 160 (by norm_num)).2.2.2.1,
    (C7_level_info 160 (by norm_num)).2.2.2.2.2.2.1,
    (C7_level_info 160 (by norm_num)).2.2.2.2.2.2.2.1⟩⟩

theorem scanLoopF_results_shape : ∀ (fuel : Nat) (st : SentinelCapture) (data : List Char)
    (r : CommandResult), r ∈ (scanLoopF fuel st data).2.2.2 →
    r.stderr = [] ∧ r.command = [] := by
  intro fuel
  induction fuel with
  | zero =>
    intro st data r hr
    simp only [scanLoopF] at hr
    rw [(handleTail_shape st data).2.1] at hr
    simp at hr
  | succ n ih =>
    intro st data r hr
    rcases hf : findSentinel data with _ | ⟨⟨pre, body, rest⟩⟩
    · simp only [scanLoopF, hf] at hr
      rw [(handleTail_shape st data).2.1] at hr
      simp at hr
    · rcases hps : pushSegment st pre with ⟨stA, pA⟩
      rcases hhs : handleSentinel stA body with ⟨stB, evsB, resB⟩
      simp only [scanLoopF, hf, hps, hhs] at hr
      rcases List.mem_append.mp hr with h | h
      · rcases resB with _ | r₀
        · simp at h
        · simp at h
          subst h
          exact handleSentinel_result_shape stA body r (by rw [hhs])
      · exact ih stB rest r h

/-- C8: `muteUntilNextPrompt` changes only the display side: for any serial
data, the muted run captures exactly the same bytes and fires exactly the
same command callbacks as the unmuted run; if the data contains a
`CMD_START` sentinel the mute flag is cleared there and the final states
agree completely, and if it does not, every serial byte is withheld from
the display callback. -/
theorem C8_mute_frame (st : SentinelCapture) (d : List Char)
    (hm : st.muteSerial = false) :
    (processOutput (muteUntilNextPrompt st) d).1.capturedChunks
      = (processOutput st d).1.capturedChunks ∧
    commandsOf (processOutput (muteUntilNextPrompt st) d).2
      = commandsOf (processOutput st d).2 ∧
    (hasStart (st.partialBuffer ++ d) = true →
      (processOutput (muteUntilNextPrompt st) d).1 = (processOutput st d).1 ∧
      (processOutput (muteUntilNextPrompt st) d).1.muteSerial = false) ∧
    (hasStart (st.partialBuffer ++ d) = false → st.displayQueue = [] →
      st.pendingMessages = [] →
      displayedText (processOutput (muteUntilNextPrompt st) d).2 = []) := by
  obtain ⟨hSm, hDm, hCm⟩ := processOutput_spec (muteUntilNextPrompt st) d
  obtain ⟨hS, hD, hC⟩ := processOutput_spec st d
  have hpb : (muteUntilNextPrompt st).partialBuffer = st.partialBuffer := rfl
  rw [hpb] at hSm hDm hCm
  rcases h1 : scanLoop { st with displayQueue := [], partialBuffer := [] }
    (st.partialBuffer ++ d) with ⟨s1, e1, p1, r1⟩
  rcases h2 : scanLoop { (muteUntilNextPrompt st) with displayQueue := [], partialBuffer := [] }
    (st.partialBuffer ++ d) with ⟨s2, e2, p2, r2⟩
  have hmut := scanLoopF_mute (st.partialBuffer ++ d).length
    { st with displayQueue := [], partialBuffer := [] } (st.partialBuffer ++ d)
  rw [show scanLoopF (st.partialBuffer ++ d).length
        { ({ st with displayQueue := [], partialBuffer := [] } : SentinelCapture) with
          muteSerial := true } (st.partialBuffer ++ d)
      = scanLoop { (muteUntilNextPrompt st) with displayQueue := [], partialBuffer := [] }
        (st.partialBuffer ++ d) from rfl, h2] at hmut
  rw [show scanLoopF (st.partialBuffer ++ d).length
        { st with displayQueue := [], partialBuffer := [] } (st.partialBuffer ++ d)
      = scanLoop { st with displayQueue := [], partialBuffer := [] }
        (st.partialBuffer ++ d) from rfl, h1] at hmut
  simp only at hmut
  obtain ⟨hm1, hm2, hm3, hm4⟩ := hmut
  have hdsp := scanLoopF_display (st.partialBuffer ++ d).length
    { st with displayQueue := [], partialBuffer := [] } (st.partialBuffer ++ d)
    (le_refl _) hm rfl
  rw [show scanLoopF (st.partialBuffer ++ d).length
        { st with displayQueue := [], partialBuffer := [] } (st.partialBuffer ++ d)
      = scanLoop { st with displayQueue := [], partialBuffer := [] }
        (st.partialBuffer ++ d) from rfl, h1] at hdsp
  have hmute1 : s1.muteSerial = false := hdsp.2
  refine ⟨?_, ?_, ?_, ?_⟩
  · rw [hSm, hS, h1, h2, hm1]
  · rw [hCm, hC, h1, h2]
    simp only
    rw [hm2, hm3]
  · intro hstart
    have hstart' : hasStartF (st.partialBuffer ++ d).length (st.partialBuffer ++ d)
        = true := hstart
    have hs2 : s2 = s1 := by
      rw [hm1, if_pos hstart']
    constructor
    · rw [hSm, hS, h1, h2]
      exact hs2
    · rw [hSm, h2]
      simp only
      rw [hs2]
      exact hmute1
  · intro hstart hdq hpend
    have hstart' : hasStartF (st.partialBuffer ++ d).length (st.partialBuffer ++ d)
        = false := hstart
    have hpend' :
        (({ (muteUntilNextPrompt st) with displayQueue := [], partialBuffer := [] }
          : SentinelCapture)).pendingMessages = [] := hpend
    have hinvm := scanLoopF_inv (st.partialBuffer ++ d).length
      { (muteUntilNextPrompt st) with displayQueue := [], partialBuffer := [] }
      (st.partialBuffer ++ d) (le_refl _) hpend'
    rw [show scanLoopF (st.partialBuffer ++ d).length
          { (muteUntilNextPrompt st) with displayQueue := [], partialBuffer := [] }
          (st.partialBuffer ++ d)
        = scanLoop { (muteUntilNextPrompt st) with displayQueue := [], partialBuffer := [] }
          (st.partialBuffer ++ d) from rfl, h2] at hinvm
    have hde2 : displayedText e2 = [] := hinvm.2.2.1
    rw [hDm, h2]
    simp only
    rw [hde2, hm4 hstart']
    simp [muteUntilNextPrompt, hdq]

theorem C8_mute_frame_witness :
    exampleState.muteSerial = false ∧
    (processOutput (muteUntilNextPrompt exampleState) exampleChunk).1.capturedChunks
      = (processOutput exampleState exampleChunk).1.capturedChunks ∧
    commandsOf (processOutput (muteUntilNextPrompt exampleState) exampleChunk).2
      = commandsOf (processOutput exampleState exampleChunk).2 ∧
    hasStart (exampleState.partialBuffer ++ exampleChunk) = true ∧
    (processOutput (muteUntilNextPrompt exampleState) exampleChunk).1.muteSerial = false :=
  ⟨rfl, (C8_mute_frame exampleState exampleChunk rfl).1,
   (C8_mute_frame exampleState exampleChunk rfl).2.1, by rfl,
   ((C8_mute_frame exampleState exampleChunk rfl).2.2.1 (by rfl)).2⟩

/-- C9: system messages are queued and flushed atomically: after `ready`,
`queueSystemMessage` only appends the rendered message to the display
queue (no immediate callback); before `ready` it only appends the raw
message to the pending list; `flushDisplayQueue` (also the 8 ms idle timer
action) emits the whole queue as one single concatenated display call; at
the start of the next `processOutput` call that single flush event
precedes every other event of the call; and a ready-firing `finishCapture`
delivers the held pre-ready messages. -/
theorem C9_system_message_queue (st st' : SentinelCapture) (t d : List Char) (ec : Int)
    (hdq : st.displayQueue ≠ []) (hsk : 0 < st'.skipCaptures) (hrd : st'.ready = false) :
    (∀ s : SentinelCapture, queueSystemMessage s t
      = (if s.ready = true
         then { s with displayQueue := s.displayQueue ++ [renderQueuedMsg t] }
         else { s with pendingMessages := s.pendingMessages ++ [t] }, [])) ∧
    (∀ s : SentinelCapture, flushDisplayQueue s
      = (if s.displayQueue = [] then s else { s with displayQueue := [] },
         if s.displayQueue = [] then ([] : List OutEvent)
         else [OutEvent.display s.displayQueue.flatten])) ∧
    (∃ rest : List OutEvent, (processOutput st d).2
      = OutEvent.display st.displayQueue.flatten :: rest) ∧
    (finishCapture st' ec).2.1
      = st'.pendingMessages.map (fun m => OutEvent.display (renderPendingMsg m))
        ++ [OutEvent.ready] := by
  refine ⟨?_, ?_, ?_, ?_⟩
  · intro s
    by_cases hr : s.ready = true <;> simp [queueSystemMessage, hr]
  · intro s
    by_cases hq : s.displayQueue = [] <;> simp [flushDisplayQueue, hq]
  · have ht := processOutput_trace st d
    rw [if_neg hdq] at ht
    exact ⟨_, ht⟩
  · by_cases hp : st'.pendingMessages = [] <;>
      simp [finishCapture, flushPendingMessages, hsk, hrd, hp]

theorem C9_system_message_queue_witness :
    exampleQueuedState.displayQueue ≠ [] ∧
    0 < SentinelCapture.init.skipCaptures ∧
    SentinelCapture.init.ready = false ∧
    (∃ rest : List OutEvent, (processOutput exampleQueuedState []).2
      = OutEvent.display exampleQueuedState.displayQueue.flatten :: rest) ∧
    (finishCapture SentinelCapture.init 0).2.1
      = SentinelCapture.init.pendingMessages.map
          (fun m => OutEvent.display (renderPendingMsg m)) ++ [OutEvent.ready] :=
  ⟨by decide, by decide, rfl,
   (C9_system_message_queue exampleQueuedState SentinelCapture.init "m".data [] 0
     (by decide) (by decide) rfl).2.2.1,
   (C9_system_message_queue exampleQueuedState SentinelCapture.init "m".data [] 0
     (by decide) (by decide) rfl).2.2.2⟩

/-- C10: every `CommandResult` the parser emits is built by
`createCommandResult` from stdout, return code and cwd only, so its
`stderr` and `command` fields are empty; hence the combined
`stdout + stderr` stream tested by `checkOutputContains` (and
`checkOutputRegex`) equals `stdout` alone. -/
theorem C10_emitted_result_invariant (st : SentinelCapture) (d : List Char)
    (r : CommandResult) (hr : r ∈ commandsOf (processOutput st d).2) :
    r.stderr = [] ∧ r.command = [] ∧ r.stdout ++ r.stderr = r.stdout ∧
    (∀ expected : List Char,
      OutputValidator.checkOutputContains r expected
        = (if jsIncludes r.stdout (jsTrim expected) = true then OutputValidator.ok
           else OutputValidator.fail "Output doesn't contain expected text.")) := by
  obtain ⟨hS, hD, hC⟩ := processOutput_spec st d
  rcases h1 : scanLoop { st with displayQueue := [], partialBuffer := [] }
    (st.partialBuffer ++ d) with ⟨s1, e1, p1, r1⟩
  rw [hC, h1] at hr
  simp only at hr
  have hnc := scanLoopF_no_command (st.partialBuffer ++ d).length
    { st with displayQueue := [], partialBuffer := [] } (st.partialBuffer ++ d)
  rw [show scanLoopF (st.partialBuffer ++ d).length
        { st with displayQueue := [], partialBuffer := [] } (st.partialBuffer ++ d)
      = scanLoop { st with displayQueue := [], partialBuffer := [] }
        (st.partialBuffer ++ d) from rfl, h1] at hnc
  rw [commandsOf_nil_of_no_command hnc, List.nil_append] at hr
  have hshape := scanLoopF_results_shape (st.partialBuffer ++ d).length
    { st with displayQueue := [], partialBuffer := [] } (st.partialBuffer ++ d) r
  rw [show scanLoopF (st.partialBuffer ++ d).length
        { st with displayQueue := [], partialBuffer := [] } (st.partialBuffer ++ d)
      = scanLoop { st with displayQueue := [], partialBuffer := [] }
        (st.partialBuffer ++ d) from rfl, h1] at hshape
  obtain ⟨hse, hcm⟩ := hshape hr
  refine ⟨hse, hcm, by rw [hse, List.append_nil], ?_⟩
  intro expected
  unfold OutputValidator.checkOutputContains
  rw [hse, List.append_nil]

theorem C10_emitted_result_invariant_witness :
    createCommandResult [] 0 "/home/student".data
      ∈ commandsOf (processOutput exampleState exampleChunk).2 ∧
    (createCommandResult [] 0 "/home/student".data).stderr = [] ∧
    (createCommandResult [] 0 "/home/student".data).command = [] :=
  ⟨by decide,
   (C10_emitted_result_invariant exampleState exampleChunk
     (createCommandResult [] 0 "/home/student".data) (by decide)).1,
   (C10_emitted_result_invariant exampleState exampleChunk
     (createCommandResult [] 0 "/home/student".data) (by decide)).2.1⟩
